import Mathlib

/-!
Verification of the TFT auto-battler simulator core.

This file is a shallow embedding, in Lean 4, of the Python sources of the
simulator: the shared champion pool (simulator/core/pool.py), champions and
their stat recomputation (simulator/core/champion.py), the hex board
(simulator/core/board.py), the player economy actions
(simulator/core/player.py), the round orchestration
(simulator/engine/game_round.py), the augment-effect registry and its
per-augment modules (simulator/env/augment_effects/), and the event engine
scheduler built on a binary min-heap (rl_env/event_engine.py, which stores
events in a heap ordered by timestamp using the standard library heap
push/pop algorithm).

Modelling conventions:
  * Python floats are modelled as rationals; the claims proved here do not
    depend on rounding behaviour, only on the data flow of the code.
  * Python dicts used as finite maps are modelled as functions into Option.
  * Python object identity is modelled by a store mapping numeric object ids
    to champion records; containers hold object ids.  The dataclass
    structural equality used by the source (which ignores attributes added
    dynamically after construction) is modelled by pyEqChampion.
  * Randomness is modelled by oracle parameters (an arbitrary choice
    function); the claims proved here hold for every oracle.
  * Fallible operations return a pair of the new state and a Bool or Option
    result, exactly mirroring the source control flow.
-/

namespace TFT

/-! ### Python primitives -/

/-- Python truthiness-based defaulting for numeric values: replicates
the source idiom `x or d` where x is None or a float; both None and 0
are falsy, so either yields the default. -/
def pyOrQ (o : Option ℚ) (d : ℚ) : ℚ :=
  match o with
  | none => d
  | some v => if v = 0 then d else v

/-- Python int() applied to a rational: truncation toward zero. -/
def pyIntQ (q : ℚ) : ℤ :=
  if 0 ≤ q then ⌊q⌋ else ⌈q⌉

/-! ### Data model: champion templates (data_loader/data_models.py) -/

/-- Immutable champion template as loaded by TFTDataLoader.  The stats
fields mirror ChampionStats; optional floats stay optional, mandatory
floats are wrapped in some. -/
structure ChampionData where
  champion_id : String
  name : String
  cost : Nat
  traits : List String
  hp : Option ℚ
  armor : Option ℚ
  magic_resist : Option ℚ
  attack_damage : Option ℚ
  attack_speed : Option ℚ
  attack_range : Option ℚ
  initial_mana : Option ℚ
  max_mana : Option ℚ
  crit_chance : Option ℚ
  crit_multiplier : Option ℚ
deriving DecidableEq, Repr

/-- The data loader catalog: the champions dict of TFTDataLoader, keyed
by champion_id, modelled as its list of values together with the
key-uniqueness that a dict guarantees. -/
structure DataLoader where
  champions : List ChampionData
  ids_nodup : (champions.map ChampionData.champion_id).Nodup

/-- TFTDataLoader.get_champion_by_id. -/
def DataLoader.byId (dl : DataLoader) (id : String) : Option ChampionData :=
  dl.champions.find? (fun cd => cd.champion_id = id)

/-- TFTDataLoader.get_champion_by_name. -/
def DataLoader.byName (dl : DataLoader) (nm : String) : Option ChampionData :=
  dl.champions.find? (fun cd => cd.name = nm)

/-! ### Champion instances (simulator/core/champion.py) -/

/-- A champion instance on a board or bench: the mutable dataclass of
simulator/core/champion.py.  fires_missiles and shield model the
dynamically added attributes used by the augment passives
(artillery_barrage.py writes champion attribute fires-missiles,
exiles_ii.py writes champion attribute shield); absence is modelled as
false resp. 0. -/
structure Champion where
  data : ChampionData
  stars : Nat
  position : Option (Int × Int)
  items : List String
  current_hp : ℚ
  max_hp : ℚ
  attack_damage : ℚ
  ability_power : ℚ
  armor : ℚ
  magic_resist : ℚ
  attack_speed : ℚ
  critical_chance : ℚ
  critical_damage : ℚ
  attack_range : ℚ
  current_mana : ℚ
  max_mana : ℚ
  is_alive : Bool
  is_stunned : Bool
  is_channeling : Bool
  fires_missiles : Bool
  shield : ℚ
deriving DecidableEq, Repr

/-- Star multiplier table of Champion._update_base_stats:
1.0 / 1.8 / 3.24 / 5.832, default 1.0. -/
def starMultiplier (stars : Nat) : ℚ :=
  if stars = 1 then 1
  else if stars = 2 then 9 / 5
  else if stars = 3 then 81 / 25
  else if stars = 4 then 729 / 125
  else 1

/-- Champion._update_base_stats: recompute the live stats from the
template and the star level. -/
def updateBaseStats (c : Champion) : Champion :=
  let m := starMultiplier c.stars
  let base_hp := pyOrQ c.data.hp 500
  { c with
    max_hp := base_hp * m
    current_hp := base_hp * m
    attack_damage := pyOrQ c.data.attack_damage 40 * m
    armor := pyOrQ c.data.armor 20
    magic_resist := pyOrQ c.data.magic_resist 20
    attack_speed := pyOrQ c.data.attack_speed (3 / 5)
    attack_range := pyOrQ c.data.attack_range 1
    critical_chance := pyOrQ c.data.crit_chance (1 / 4)
    critical_damage := pyOrQ c.data.crit_multiplier (7 / 5)
    current_mana := pyOrQ c.data.initial_mana 0
    max_mana := pyOrQ c.data.max_mana 100
    ability_power := 100 }

/-- create_champion factory (champion.py): a fresh instance whose
__post_init__ runs _update_base_stats.  The item-equipping parameter is
always absent at the call sites modelled here. -/
def createChampion (d : ChampionData) (stars : Nat) : Champion :=
  updateBaseStats
    { data := d
      stars := stars
      position := none
      items := []
      current_hp := 0, max_hp := 0, attack_damage := 0, ability_power := 0
      armor := 0, magic_resist := 0, attack_speed := 0
      critical_chance := 0, critical_damage := 0, attack_range := 0
      current_mana := 0, max_mana := 0
      is_alive := true, is_stunned := false, is_channeling := false
      fires_missiles := false, shield := 0 }

/-- Champion.reset_for_combat. -/
def resetForCombat (c : Champion) : Champion :=
  { c with
    current_hp := c.max_hp
    current_mana := pyOrQ c.data.initial_mana 0
    is_alive := true
    is_stunned := false
    is_channeling := false }

/-- Champion.upgrade_star. -/
def upgradeStar (c : Champion) : Champion × Bool :=
  if 4 ≤ c.stars then (c, false)
  else (updateBaseStats { c with stars := c.stars + 1 }, true)

/-- Python == on two Champion objects (dataclass structural equality):
attributes set dynamically after construction (fires_missiles, shield)
are not dataclass fields and do not participate in Python ==;
the conjunction of equality of every declared dataclass field. -/
def pyEqChampion (a b : Champion) : Bool :=
  decide (a.data = b.data) && decide (a.stars = b.stars) &&
  decide (a.position = b.position) && decide (a.items = b.items) &&
  decide (a.current_hp = b.current_hp) && decide (a.max_hp = b.max_hp) &&
  decide (a.attack_damage = b.attack_damage) &&
  decide (a.ability_power = b.ability_power) &&
  decide (a.armor = b.armor) && decide (a.magic_resist = b.magic_resist) &&
  decide (a.attack_speed = b.attack_speed) &&
  decide (a.critical_chance = b.critical_chance) &&
  decide (a.critical_damage = b.critical_damage) &&
  decide (a.attack_range = b.attack_range) &&
  decide (a.current_mana = b.current_mana) &&
  decide (a.max_mana = b.max_mana) &&
  decide (a.is_alive = b.is_alive) && decide (a.is_stunned = b.is_stunned) &&
  decide (a.is_channeling = b.is_channeling)

/-! ### Champion pool (simulator/core/pool.py) -/

/-- ChampionPool state: the pool dict (champion_id to remaining copies;
absence of a key is none) and the per-cost tier_totals bookkeeping dict
(defaultdict of int). -/
structure PoolSt where
  pool : String → Option Nat
  tier_totals : Nat → ℤ

/-- pool_size_config.get(cost, 10). -/
def cfgCopies (sizeCfg : Nat → Option Nat) (cost : Nat) : Nat :=
  (sizeCfg cost).getD 10

/-- ChampionPool._initialize_pool: one entry of num_copies per champion
in the catalog, and tier totals accumulated per cost. -/
def initPool (dl : DataLoader) (sizeCfg : Nat → Option Nat) : PoolSt :=
  dl.champions.foldl
    (fun ps cd =>
      { pool := fun id =>
          if id = cd.champion_id then some (cfgCopies sizeCfg cd.cost)
          else ps.pool id
        tier_totals := fun t =>
          if t = cd.cost then ps.tier_totals t + cfgCopies sizeCfg cd.cost
          else ps.tier_totals t })
    { pool := fun _ => none, tier_totals := fun _ => 0 }

/-- ChampionPool.get_available: pool.get(champion_id, 0). -/
def getAvailable (ps : PoolSt) (id : String) : Nat :=
  (ps.pool id).getD 0

/-- ChampionPool.is_available. -/
def isAvailable (ps : PoolSt) (id : String) : Bool :=
  decide (0 < getAvailable ps id)

/-- ChampionPool.acquire: fail when no copy is available, otherwise
decrement the count and (when the catalog knows the champion) the tier
total. -/
def acquire (dl : DataLoader) (ps : PoolSt) (id : String) : PoolSt × Bool :=
  if isAvailable ps id then
    let n := getAvailable ps id
    let ps1 : PoolSt :=
      { ps with pool := fun j => if j = id then some (n - 1) else ps.pool j }
    match dl.byId id with
    | some cd =>
        ({ ps1 with tier_totals := fun t =>
            if t = cd.cost then ps1.tier_totals t - 1 else ps1.tier_totals t },
         true)
    | none => (ps1, true)
  else (ps, false)

/-- ChampionPool.release: fail when the id has no pool entry or no
catalog entry, or when the count already sits at the configured maximum
for the champion cost; otherwise increment. -/
def release (dl : DataLoader) (sizeCfg : Nat → Option Nat) (ps : PoolSt)
    (id : String) : PoolSt × Bool :=
  match ps.pool id with
  | none => (ps, false)
  | some n =>
    match dl.byId id with
    | none => (ps, false)
    | some cd =>
      let maxCopies := cfgCopies sizeCfg cd.cost
      if n < maxCopies then
        ({ pool := fun j => if j = id then some (n + 1) else ps.pool j
           tier_totals := fun t =>
             if t = cd.cost then ps.tier_totals t + 1 else ps.tier_totals t },
         true)
      else (ps, false)

/-- One acquire or release call on the pool, with its target id. -/
inductive PoolOp where
  | acq : String → PoolOp
  | rel : String → PoolOp

/-- Run one pool operation, additionally tracking per id the signed
number of copies successfully acquired and not yet released. -/
def poolStep (dl : DataLoader) (sizeCfg : Nat → Option Nat)
    (s : PoolSt × (String → ℤ)) (op : PoolOp) : PoolSt × (String → ℤ) :=
  match op with
  | .acq id =>
      let r := acquire dl s.1 id
      (r.1, if r.2 then (fun j => if j = id then s.2 j + 1 else s.2 j) else s.2)
  | .rel id =>
      let r := release dl sizeCfg s.1 id
      (r.1, if r.2 then (fun j => if j = id then s.2 j - 1 else s.2 j) else s.2)

/-- Run a finite sequence of acquire/release calls on a freshly
initialized pool, starting the acquired-count ledger at zero. -/
def poolRun (dl : DataLoader) (sizeCfg : Nat → Option Nat)
    (ops : List PoolOp) : PoolSt × (String → ℤ) :=
  ops.foldl (poolStep dl sizeCfg) (initPool dl sizeCfg, fun _ => 0)

/-! ### Configuration (simulator/config.py) -/

/-- XP thresholds of TFTConfig.xp_to_level. -/
def defaultXpToLevel : Nat → Option ℤ := fun lvl =>
  if lvl = 1 then some 0
  else if lvl = 2 then some 2
  else if lvl = 3 then some 6
  else if lvl = 4 then some 10
  else if lvl = 5 then some 20
  else if lvl = 6 then some 36
  else if lvl = 7 then some 56
  else if lvl = 8 then some 80
  else if lvl = 9 then some 108
  else if lvl = 10 then some 136
  else if lvl = 11 then some 99999
  else none

/-- Board unit cap per level of TFTConfig.max_units_by_level. -/
def defaultMaxUnits : Nat → Option Nat := fun lvl =>
  if 1 ≤ lvl ∧ lvl ≤ 11 then some lvl else none

/-- The slice of TFTConfig consumed by the components modelled here. -/
structure Config where
  num_players : Nat := 8
  max_game_rounds : Nat := 48
  starting_gold : ℤ := 0
  starting_health : ℤ := 100
  starting_level : Nat := 1
  interest_cap : ℤ := 5
  gold_per_round : ℤ := 5
  max_level : Nat := 11
  xp_cost : ℤ := 4
  shop_refresh_cost : ℤ := 2
  bench_size : Nat := 9
  shop_size : Nat := 5
  xp_to_level : Nat → Option ℤ := defaultXpToLevel
  max_units_by_level : Nat → Option Nat := defaultMaxUnits
  enable_carousel : Bool := false
  enable_augments : Bool := false

/-- The default configuration (TFTConfig()). -/
def defaultConfig : Config := {}

/-- GameConstants.CAROUSEL_ROUNDS. -/
def CAROUSEL_ROUNDS : List Nat := [9, 18, 27, 36]

/-- GameConstants.MINION_ROUNDS. -/
def MINION_ROUNDS : List Nat := [1, 2, 3]

/-- GameConstants.AUGMENT_ROUNDS. -/
def AUGMENT_ROUNDS : List Nat := [6, 13, 20]

/-! ### Object store

Python objects are heap references; containers (board cells, bench
slots) hold references and champion mutation happens through them.  The
embedding uses numeric object ids and a total store from ids to champion
records; fresh objects are allocated at a next-id counter. -/

/-- The champion object store. -/
def Store : Type := Nat → Champion

/-- Functional update of one object in the store. -/
def updStore (st : Store) (cid : Nat) (f : Champion → Champion) : Store :=
  fun j => if j = cid then f (st j) else st j

/-! ### Board (simulator/core/board.py) -/

/-- Board state: fixed dimensions and the position-to-object grid.  The
Python grid dict is created with every in-bounds cell mapped to None, so
iteration order over grid.values() is permanently row-major; the
embedding keeps the grid as a total function and enumerates cells
row-major where the source iterates the dict. -/
structure BoardSt where
  rows : Nat
  cols : Nat
  grid : Int × Int → Option Nat

/-- Board.__init__ (default 4 rows, 7 columns). -/
def initBoard (rows cols : Nat) : BoardSt :=
  { rows := rows, cols := cols, grid := fun _ => none }

/-- Board.is_valid_position. -/
def isValidPos (b : BoardSt) (r c : Int) : Bool :=
  decide (0 ≤ r) && decide (r < (b.rows : Int)) &&
  decide (0 ≤ c) && decide (c < (b.cols : Int))

/-- Board.is_empty. -/
def boardIsEmpty (b : BoardSt) (r c : Int) : Bool :=
  isValidPos b r c && (b.grid (r, c)).isNone

/-- Board.get. -/
def boardGet (b : BoardSt) (r c : Int) : Option Nat :=
  if isValidPos b r c then b.grid (r, c) else none

/-- Row-major enumeration of the grid cells, the iteration order of the
Python grid dict. -/
def rowMajor (rows cols : Nat) : List (Int × Int) :=
  (List.range rows).flatMap
    (fun r => (List.range cols).map (fun c => ((r : Int), (c : Int))))

/-- Board.get_all_champions: the non-empty cells in dict order. -/
def getAllChampionsB (b : BoardSt) : List Nat :=
  (rowMajor b.rows b.cols).filterMap b.grid

/-- Board.count_champions. -/
def countChampions (b : BoardSt) : Nat :=
  (getAllChampionsB b).length

/-- The remove-from-old-position block of Board.place: when the placed
champion records a previous position whose cell still holds an == equal
object, that cell is cleared. -/
def clearStalePrev (st : Store) (b : BoardSt) (cid : Nat) : BoardSt :=
  match (st cid).position with
  | some old =>
      match b.grid old with
      | some d =>
          if pyEqChampion (st d) (st cid) then
            { b with grid := fun p => if p = old then none else b.grid p }
          else b
      | none => b
  | none => b

/-- Board.place: reject invalid or occupied targets; otherwise clear the
champion's stale previous cell when that cell still references an ==
equal object, then write the champion and record its position. -/
def boardPlace (st : Store) (b : BoardSt) (cid : Nat) (r c : Int) :
    Store × BoardSt × Bool :=
  if ¬ (isValidPos b r c = true) then (st, b, false)
  else if ¬ (boardIsEmpty b r c = true) then (st, b, false)
  else
    let b1 := clearStalePrev st b cid
    let b2 : BoardSt :=
      { b1 with grid := fun p => if p = (r, c) then some cid else b1.grid p }
    (updStore st cid (fun ch => { ch with position := some (r, c) }), b2, true)

/-- Board.remove. -/
def boardRemove (st : Store) (b : BoardSt) (r c : Int) :
    Store × BoardSt × Option Nat :=
  if ¬ (isValidPos b r c = true) then (st, b, none)
  else
    match b.grid (r, c) with
    | some cid =>
        (updStore st cid (fun ch => { ch with position := none }),
         { b with grid := fun p => if p = (r, c) then none else b.grid p },
         some cid)
    | none => (st, b, none)

/-- Board.move. -/
def boardMove (st : Store) (b : BoardSt) (fr fc tr tc : Int) :
    Store × BoardSt × Bool :=
  match boardGet b fr fc with
  | none => (st, b, false)
  | some cid =>
    if ¬ (isValidPos b tr tc = true) then (st, b, false)
    else if ¬ (boardIsEmpty b tr tc = true) then (st, b, false)
    else
      (updStore st cid (fun ch => { ch with position := some (tr, tc) }),
       { b with grid := fun p =>
           if p = (tr, tc) then some cid
           else if p = (fr, fc) then none
           else b.grid p },
       true)

/-- Board.swap: swap two cell contents (either may be empty) and update
the stored positions of the champions involved, in source order. -/
def boardSwap (st : Store) (b : BoardSt) (r1 c1 r2 c2 : Int) :
    Store × BoardSt × Bool :=
  if ¬ (isValidPos b r1 c1 = true) then (st, b, false)
  else if ¬ (isValidPos b r2 c2 = true) then (st, b, false)
  else
    let ch1 := b.grid (r1, c1)
    let ch2 := b.grid (r2, c2)
    let b2 : BoardSt :=
      { b with grid := fun p =>
          if p = (r2, c2) then ch1
          else if p = (r1, c1) then ch2
          else b.grid p }
    let st1 :=
      match ch1 with
      | some a => updStore st a (fun ch => { ch with position := some (r2, c2) })
      | none => st
    let st2 :=
      match ch2 with
      | some a => updStore st1 a (fun ch => { ch with position := some (r1, c1) })
      | none => st1
    (st2, b2, true)

/-- One Board operation of the place/remove/move/swap vocabulary. -/
inductive BoardOp where
  | place : Nat → Int → Int → BoardOp
  | remove : Int → Int → BoardOp
  | move : Int → Int → Int → Int → BoardOp
  | swap : Int → Int → Int → Int → BoardOp

/-- Apply one Board operation to the store and board, discarding the
returned status. -/
def applyBoardOp (s : Store × BoardSt) (op : BoardOp) : Store × BoardSt :=
  match op with
  | .place cid r c =>
      let t := boardPlace s.1 s.2 cid r c
      (t.1, t.2.1)
  | .remove r c =>
      let t := boardRemove s.1 s.2 r c
      (t.1, t.2.1)
  | .move fr fc tr tc =>
      let t := boardMove s.1 s.2 fr fc tr tc
      (t.1, t.2.1)
  | .swap r1 c1 r2 c2 =>
      let t := boardSwap s.1 s.2 r1 c1 r2 c2
      (t.1, t.2.1)

/-- Run a sequence of Board operations. -/
def runBoard (ops : List BoardOp) (s : Store × BoardSt) : Store × BoardSt :=
  ops.foldl applyBoardOp s

/-- Board.find_champion: first grid cell (dict order) whose occupant
compares == equal to the given champion object. -/
def findChampion (st : Store) (b : BoardSt) (ch : Champion) :
    Option (Int × Int) :=
  (rowMajor b.rows b.cols).find?
    (fun p => match b.grid p with
      | some d => pyEqChampion (st d) ch
      | none => false)

/-- Board.get_hex_neighbors: offset-coordinate hex adjacency, filtered
to in-bounds cells. -/
def hexNeighbors (b : BoardSt) (r c : Int) : List (Int × Int) :=
  let candidates :=
    if r % 2 = 0 then
      [(r, c - 1), (r, c + 1),
       (r - 1, c - 1), (r - 1, c),
       (r + 1, c - 1), (r + 1, c)]
    else
      [(r, c - 1), (r, c + 1),
       (r - 1, c), (r - 1, c + 1),
       (r + 1, c), (r + 1, c + 1)]
  candidates.filter (fun p => isValidPos b p.1 p.2)

/-! ### Augment descriptor (data_loader/data_models.py Augment) -/

/-- The slice of the Augment dataclass the hook system consumes: the id
and the effects dict (numeric-valued at every modelled use site). -/
structure Augment where
  augment_id : String
  name : String
  effects : String → Option ℚ

/-! ### Player (simulator/core/player.py) -/

/-- Player state.  win_streak and loss_streak are modelled from the
spec (game_round.py calls Player.update_streak, which is absent from
the sources; see updateStreak). -/
structure PlayerSt where
  player_id : Nat
  gold : ℤ
  health : ℤ
  level : Nat
  xp : ℤ
  free_rerolls : ℤ
  board : BoardSt
  bench : List (Option Nat)
  shop : List (Option String)
  items : List String
  is_alive : Bool
  placement : Nat
  gold_spent : ℤ
  total_damage_dealt : ℤ
  total_damage_taken : ℤ
  rounds_survived : Nat
  active_traits : List (String × Nat)
  selected_augments : List Augment
  win_streak : ℤ
  loss_streak : ℤ

/-- Player.__init__ for a given id against a fresh board and empty
containers. -/
def initPlayer (cfg : Config) (pid : Nat) : PlayerSt :=
  { player_id := pid
    gold := cfg.starting_gold
    health := cfg.starting_health
    level := cfg.starting_level
    xp := 0
    free_rerolls := 0
    board := initBoard 4 7
    bench := List.replicate cfg.bench_size none
    shop := List.replicate cfg.shop_size none
    items := []
    is_alive := true
    placement := 0
    gold_spent := 0
    total_damage_dealt := 0
    total_damage_taken := 0
    rounds_survived := 0
    active_traits := []
    selected_augments := []
    win_streak := 0
    loss_streak := 0 }

/-- Player._check_level_up. -/
def checkLevelUp (cfg : Config) (p : PlayerSt) : PlayerSt :=
  let next := p.level + 1
  if cfg.max_level < next then p
  else
    let xp_needed := (cfg.xp_to_level next).getD 99999
    if xp_needed ≤ p.xp then { p with level := next } else p

/-- Player.buy_xp: require gold at or above the XP cost and level below
the maximum; deduct gold, add the fixed 4 XP, then run the level-up
check. -/
def buyXp (cfg : Config) (p : PlayerSt) : PlayerSt × Bool :=
  if p.gold < cfg.xp_cost then (p, false)
  else if cfg.max_level ≤ p.level then (p, false)
  else
    let p1 := { p with
      gold := p.gold - cfg.xp_cost
      gold_spent := p.gold_spent + cfg.xp_cost
      xp := p.xp + 4 }
    (checkLevelUp cfg p1, true)

/-- Player.gain_interest (Python floor division). -/
def gainInterest (cfg : Config) (p : PlayerSt) : PlayerSt × ℤ :=
  let interest := min (Int.fdiv p.gold 10) cfg.interest_cap
  ({ p with gold := p.gold + interest }, interest)

/-- Player.start_of_round_gold. -/
def startOfRoundGold (cfg : Config) (p : PlayerSt) : PlayerSt :=
  (gainInterest cfg { p with gold := p.gold + cfg.gold_per_round }).1

/-- Player.take_damage. -/
def takeDamage (p : PlayerSt) (damage : ℤ) : PlayerSt :=
  let p1 := { p with
    health := p.health - damage
    total_damage_taken := p.total_damage_taken + damage }
  if p1.health ≤ 0 then { p1 with health := 0, is_alive := false } else p1

/-- Player.update_streak.  Modelled from the spec: game_round.py calls
this Player method but its definition is absent from the sources; the
spec says the default PvP path updates win/loss streak counters after
each resolved pairing. -/
def updateStreak (p : PlayerSt) (won : Bool) : PlayerSt :=
  if won then { p with win_streak := p.win_streak + 1, loss_streak := 0 }
  else { p with loss_streak := p.loss_streak + 1, win_streak := 0 }

/-- Player.grant_item_component.  Modelled from the spec: game_round.py
calls this Player method but its definition is absent from the sources;
the spec says carousel and early minion rounds grant the player one item
component, so the component is appended to the player's item
inventory. -/
def grantItemComponent (p : PlayerSt) (component : String) : PlayerSt :=
  { p with items := p.items ++ [component] }

/-! ### Player actions that touch the shared pool and store
(simulator/core/player.py) -/

/-- A player together with the shared state its actions touch: the
object store with its allocation counter and the shared champion
pool. -/
structure SP where
  store : Store
  nextId : Nat
  pool : PoolSt
  player : PlayerSt

/-- n successive ChampionPool.release calls on the same id (the loop of
Player._sell_champion). -/
def releaseN (dl : DataLoader) (sizeCfg : Nat → Option Nat) (ps : PoolSt)
    (id : String) : Nat → PoolSt
  | 0 => ps
  | n + 1 => releaseN dl sizeCfg (release dl sizeCfg ps id).1 id n

/-- Player._sell_champion: return 3^(stars-1) copies to the pool and
credit gold equal to the base cost (champion.cost, independent of star
level). -/
def sellChampionInternal (dl : DataLoader) (sizeCfg : Nat → Option Nat)
    (sp : SP) (cid : Nat) : SP × Bool :=
  let ch := sp.store cid
  let pool1 := releaseN dl sizeCfg sp.pool ch.data.champion_id (3 ^ (ch.stars - 1))
  ({ sp with
      pool := pool1
      player := { sp.player with gold := sp.player.gold + (ch.data.cost : ℤ) } },
   true)

/-- Player.sell_champion: row -1 addresses the bench, other rows the
board; empty or out-of-range positions fail with no state change. -/
def sellChampion (dl : DataLoader) (sizeCfg : Nat → Option Nat) (sp : SP)
    (pos : Int × Int) : SP × Bool :=
  let row := pos.1
  let col := pos.2
  if row = -1 then
    if ¬ (0 ≤ col ∧ col < (sp.player.bench.length : Int)) then (sp, false)
    else
      match sp.player.bench.getD col.toNat none with
      | none => (sp, false)
      | some cid =>
          sellChampionInternal dl sizeCfg
            { sp with player :=
                { sp.player with bench := sp.player.bench.set col.toNat none } }
            cid
  else
    let t := boardRemove sp.store sp.player.board row col
    match t.2.2 with
    | none => (sp, false)
    | some cid =>
        sellChampionInternal dl sizeCfg
          { sp with
              store := t.1
              player := { sp.player with board := t.2.1 } }
          cid

/-- Player._add_to_bench_no_upgrade: first empty bench slot. -/
def addToBenchNoUpgrade (p : PlayerSt) (cid : Nat) : PlayerSt × Bool :=
  match p.bench.findIdx? (fun slot => slot.isNone) with
  | some i => ({ p with bench := p.bench.set i (some cid) }, true)
  | none => (p, false)

/-- The same-id same-star collection of Player._check_for_upgrade:
bench copies first (slot order), then board copies (grid order). -/
def sameChampions (sp : SP) (newCid : Nat) : List Nat :=
  let pred := fun c =>
    decide ((sp.store c).data.champion_id
        = (sp.store newCid).data.champion_id) &&
    decide ((sp.store c).stars = (sp.store newCid).stars)
  (sp.player.bench.filterMap id).filter pred ++
  (getAllChampionsB sp.player.board).filter pred

/-- Python list removal by == scan of
Player._remove_champion_from_bench_or_board: clear the first bench slot
whose occupant compares equal, else remove the first == equal board
cell. -/
def removeChampionFromBenchOrBoard (sp : SP) (ch : Champion) : SP :=
  match sp.player.bench.findIdx?
      (fun slot => match slot with
        | some c => pyEqChampion (sp.store c) ch
        | none => false) with
  | some i =>
      { sp with player := { sp.player with bench := sp.player.bench.set i none } }
  | none =>
      match findChampion sp.store sp.player.board ch with
      | some p =>
          let t := boardRemove sp.store sp.player.board p.1 p.2
          { sp with store := t.1, player := { sp.player with board := t.2.1 } }
      | none => sp

/-- Player._check_for_upgrade: with two or more same-id same-star
copies already owned, upgrade the first and remove (by == scan) the
second; the incoming champion is reported as consumed. -/
def checkForUpgrade (sp : SP) (newCid : Nat) : SP × Bool :=
  let same := sameChampions sp newCid
  if 2 ≤ same.length then
    let toUpgrade := same.getD 0 0
    let st1 := updStore sp.store toUpgrade (fun c => (upgradeStar c).1)
    let other := same.getD 1 0
    let sp1 := removeChampionFromBenchOrBoard { sp with store := st1 } (st1 other)
    (sp1, true)
  else (sp, false)

/-- Player._add_to_bench: run the upgrade check, then (in either branch
of the source) fall through to the first-empty-slot insertion. -/
def addToBench (sp : SP) (cid : Nat) : SP × Bool :=
  let t := checkForUpgrade sp cid
  let u := addToBenchNoUpgrade t.1.player cid
  ({ t.1 with player := u.1 }, u.2)

/-- Player.buy_champion_from_shop: validate the slot, the catalog entry,
gold and pool stock; acquire from the pool, pay, construct a fresh
1-star champion, try the bench (with upgrade check), auto-sell when the
bench is full, and clear the shop slot. -/
def buyChampionFromShop (dl : DataLoader) (sizeCfg : Nat → Option Nat)
    (cfg : Config) (sp : SP) (idx : Int) : SP × Bool :=
  if ¬ (0 ≤ idx ∧ idx < (cfg.shop_size : Int)) then (sp, false)
  else
    match sp.player.shop.getD idx.toNat none with
    | none => (sp, false)
    | some champIdStr =>
      match dl.byId champIdStr with
      | none => (sp, false)
      | some cdata =>
        if sp.player.gold < (cdata.cost : ℤ) then (sp, false)
        else if ¬ (isAvailable sp.pool champIdStr = true) then (sp, false)
        else
          let acq := acquire dl sp.pool champIdStr
          if ¬ (acq.2 = true) then (sp, false)
          else
            let sp1 : SP :=
              { sp with
                  pool := acq.1
                  player := { sp.player with
                    gold := sp.player.gold - (cdata.cost : ℤ)
                    gold_spent := sp.player.gold_spent + (cdata.cost : ℤ) } }
            let cid := sp1.nextId
            let sp2 : SP :=
              { sp1 with
                  store := fun j =>
                    if j = cid then createChampion cdata 1 else sp1.store j
                  nextId := cid + 1 }
            let t := addToBench sp2 cid
            let sp4 := if t.2 then t.1 else (sellChampionInternal dl sizeCfg t.1 cid).1
            ({ sp4 with player :=
                { sp4.player with shop := sp4.player.shop.set idx.toNat none } },
             true)

/-! ### Augment effect system (simulator/env/augment_effects/) -/

/-- AugmentResult (_base.py): the standardised hook return value, with
the dataclass defaults. -/
structure AugmentResult where
  success : Bool := true
  grants : List String := []
  gold_delta : ℤ := 0
  affected_champions : List String := []
  xp_delta : ℤ := 0
  rerolls_granted : ℤ := 0
deriving DecidableEq, Repr

/-- _base._get_all_champions: board champions then occupied bench
slots. -/
def getAllChampionsP (sp : SP) : List Nat :=
  getAllChampionsB sp.player.board ++ sp.player.bench.filterMap id

/-- _base._grant_champion: look the champion up by display name, check
stock, acquire one copy, construct a 1-star instance and run the bench
insertion (with upgrade check). -/
def grantChampion (dl : DataLoader) (sp : SP) (championName : String) :
    SP × Bool :=
  match dl.byName championName with
  | none => (sp, false)
  | some cdata =>
    if ¬ (isAvailable sp.pool cdata.champion_id = true) then (sp, false)
    else
      let acq := acquire dl sp.pool cdata.champion_id
      let sp1 : SP := { sp with pool := acq.1 }
      let cid := sp1.nextId
      let sp2 : SP :=
        { sp1 with
            store := fun j => if j = cid then createChampion cdata 1 else sp1.store j
            nextId := cid + 1 }
      ((addToBench sp2 cid).1, true)

/-- _base._epoch_apply: free XP (with level-up check) plus free
rerolls. -/
def epochApply (cfg : Config) (effects : String → Option ℚ) (sp : SP) :
    SP × AugmentResult :=
  let xp_amount := pyIntQ ((effects "XPAmount").getD 4)
  let reroll_count := pyIntQ ((effects "RerollCount").getD 3)
  let p1 := { sp.player with xp := sp.player.xp + xp_amount }
  let p2 := checkLevelUp cfg p1
  let p3 := { p2 with free_rerolls := p2.free_rerolls + reroll_count }
  ({ sp with player := p3 },
   { success := true, xp_delta := xp_amount, rerolls_granted := reroll_count })

/-- The reset statement of artillery_barrage._passive: restore the base
attack range and clear the missile flag. -/
def artilleryReset (ch : Champion) : Champion :=
  { ch with attack_range := pyOrQ ch.data.attack_range 1, fires_missiles := false }

/-- The bonus statement of artillery_barrage._passive on the strongest
Rumble. -/
def artilleryBonus (bonus_range : ℤ) (ch : Champion) : Champion :=
  { ch with
    attack_range := ch.attack_range + (bonus_range : ℚ)
    fires_missiles := true }

/-- Python max over ids with a (stars, hp) key: strictly greater
candidates replace the current best, so the first maximal element
wins. -/
def pyMaxBy (key : Nat → Nat × ℚ) : List Nat → Option Nat
  | [] => none
  | x :: xs =>
      some (xs.foldl
        (fun best c =>
          if (key best).1 < (key c).1 ∨
             ((key best).1 = (key c).1 ∧ (key best).2 < (key c).2)
          then c else best)
        x)

/-- artillery_barrage._strongest_rumble: board Rumbles take priority
over bench Rumbles; within a group the maximum by (stars, current_hp)
wins. -/
def strongestRumble (st : Store) (p : PlayerSt) : Option Nat :=
  let key := fun c => ((st c).stars, (st c).current_hp)
  let board_rumbles :=
    (getAllChampionsB p.board).filter (fun c => (st c).data.name = "Rumble")
  let bench_rumbles :=
    (p.bench.filterMap id).filter (fun c => (st c).data.name = "Rumble")
  match pyMaxBy key board_rumbles with
  | some t => some t
  | none => pyMaxBy key bench_rumbles

/-- artillery_barrage._passive: reset range and flag on every owned
Rumble, then grant the range bonus and missile flag to the strongest
one. -/
def artilleryPassive (effects : String → Option ℚ) (sp : SP) :
    SP × AugmentResult :=
  let bonus_range := pyIntQ ((effects "MaxRange").getD 0)
  let rumbles :=
    (getAllChampionsP sp).filter (fun c => (sp.store c).data.name = "Rumble")
  let st1 := rumbles.foldl (fun st c => updStore st c artilleryReset) sp.store
  match strongestRumble st1 sp.player with
  | none => ({ sp with store := st1 }, { success := false })
  | some t =>
      ({ sp with store := updStore st1 t (artilleryBonus bonus_range) },
       { success := true, affected_champions := [(st1 t).data.name] })

/-- The shield reset of exiles_ii._passive. -/
def exilesResetShield (ch : Champion) : Champion :=
  { ch with shield := 0 }

/-- The shield grant of exiles_ii._passive. -/
def exilesShield (pct : ℚ) (ch : Champion) : Champion :=
  { ch with shield := ch.max_hp * pct }

/-- The per-champion body of the exiles_ii._passive shield loop. -/
def exilesStep (board : BoardSt) (occupied : List (Int × Int)) (pct : ℚ)
    (acc : Store × List String) (c : Nat) : Store × List String :=
  match (acc.1 c).position with
  | none => acc
  | some pos =>
      if (hexNeighbors board pos.1 pos.2).any (fun q => occupied.contains q)
      then acc
      else (updStore acc.1 c (exilesShield pct),
            acc.2 ++ [(acc.1 c).data.name])

/-- The guard of the exiles_ii._passive shield loop as a predicate on
the champion record: placed and with no occupied adjacent hex. -/
def exilesIsolated (board : BoardSt) (occupied : List (Int × Int))
    (ch : Champion) : Bool :=
  match ch.position with
  | none => false
  | some pos =>
      ! ((hexNeighbors board pos.1 pos.2).any (fun q => occupied.contains q))

/-- exiles_ii._passive: reset every board champion's shield, then grant
max_hp * ShieldPercent to every champion with no occupied adjacent
hex. -/
def exilesPassive (effects : String → Option ℚ) (sp : SP) :
    SP × AugmentResult :=
  let shield_pct := (effects "ShieldPercent").getD (3 / 10)
  let board_champions := getAllChampionsB sp.player.board
  let occupied := board_champions.filterMap (fun c => (sp.store c).position)
  let st1 := board_champions.foldl
    (fun st c => updStore st c exilesResetShield) sp.store
  let r := board_champions.foldl
    (exilesStep sp.player.board occupied shield_pct) (st1, [])
  ({ sp with store := r.1 }, { success := true, affected_champions := r.2 })

/-- The store component of artillery_barrage._passive, as a function of
the player's containers and the store alone (the passive touches
nothing else). -/
def artStore (effects : String → Option ℚ) (p : PlayerSt) (st : Store) :
    Store :=
  let bonus_range := pyIntQ ((effects "MaxRange").getD 0)
  let rumbles :=
    (getAllChampionsB p.board ++ p.bench.filterMap id).filter
      (fun c => (st c).data.name = "Rumble")
  let st1 := rumbles.foldl (fun st2 c2 => updStore st2 c2 artilleryReset) st
  match strongestRumble st1 p with
  | none => st1
  | some t => updStore st1 t (artilleryBonus bonus_range)

/-- The store component of exiles_ii._passive, as a function of the
player's containers and the store alone. -/
def exStore (effects : String → Option ℚ) (p : PlayerSt) (st : Store) :
    Store :=
  let shield_pct := (effects "ShieldPercent").getD (3 / 10)
  let board_champions := getAllChampionsB p.board
  let occupied := board_champions.filterMap (fun c => (st c).position)
  let st1 := board_champions.foldl
    (fun st2 c2 => updStore st2 c2 exilesResetShield) st
  (board_champions.foldl (exilesStep p.board occupied shield_pct) (st1, [])).1

/-- The hook function type: each hook receives the player with the
shared state plus the effects dict; the catalog and configuration stand
for the module-level imports the Python hooks reach. -/
def HookFn : Type :=
  DataLoader → Config → (String → Option ℚ) → SP → SP × AugmentResult

/-- artillery_barrage._on_select. -/
def artilleryOnSelectHook : HookFn := fun dl _ _ sp =>
  let t := grantChampion dl sp "Rumble"
  if t.2 then (t.1, { success := true, grants := ["Rumble"] })
  else (t.1, { success := false })

/-- artillery_barrage HOOKS entry for the passive event. -/
def artilleryPassiveHook : HookFn := fun _ _ effects sp =>
  artilleryPassive effects sp

/-- exiles_ii HOOKS entry for the passive event. -/
def exilesPassiveHook : HookFn := fun _ _ effects sp =>
  exilesPassive effects sp

/-- epoch / epoch_plus hook (both events call _epoch_apply). -/
def epochHook : HookFn := fun _ cfg effects sp =>
  epochApply cfg effects sp

/-- AUGMENT_REGISTRY of registry.py: the four modules' hook tables
keyed by augment id and event name. -/
def augmentRegistry : String → Option (String → Option HookFn) :=
  fun augId =>
    if augId = "TFT16_Augment_RumbleCarry" then
      some (fun ev =>
        if ev = "on_select" then some artilleryOnSelectHook
        else if ev = "passive" then some artilleryPassiveHook
        else none)
    else if augId = "TFT16_Augment_Exiles2" then
      some (fun ev => if ev = "passive" then some exilesPassiveHook else none)
    else if augId = "TFT16_Augment_Epoch" then
      some (fun ev =>
        if ev = "on_select" then some epochHook
        else if ev = "on_stage_start" then some epochHook
        else none)
    else if augId = "TFT16_Augment_EpochPlus" then
      some (fun ev =>
        if ev = "on_select" then some epochHook
        else if ev = "on_stage_start" then some epochHook
        else none)
    else none

/-- registry.apply_augment_hook: dispatch to the registered hook; an
unknown augment id or an event the augment does not use yields a neutral
success result with no state change (and, being a total function, never
raises). -/
def applyAugmentHook (dl : DataLoader) (cfg : Config) (sp : SP)
    (aug : Augment) (event : String) : SP × AugmentResult :=
  match augmentRegistry aug.augment_id with
  | none => (sp, { success := true })
  | some handler =>
    match handler event with
    | none => (sp, { success := true })
    | some hook => hook dl cfg aug.effects sp

/-- A tiny concrete catalog used by the witness theorems. -/
def luluData : ChampionData :=
  { champion_id := "TFT16_Lulu"
    name := "Lulu"
    cost := 1
    traits := []
    hp := some 500
    armor := some 20
    magic_resist := some 20
    attack_damage := some 40
    attack_speed := some (7 / 10)
    attack_range := some 4
    initial_mana := some 0
    max_mana := some 60
    crit_chance := some (1 / 4)
    crit_multiplier := some (7 / 5) }

/-- A second concrete champion template for witnesses. -/
def rumbleData : ChampionData :=
  { champion_id := "TFT16_Rumble"
    name := "Rumble"
    cost := 3
    traits := []
    hp := some 800
    armor := some 40
    magic_resist := some 40
    attack_damage := some 60
    attack_speed := some (3 / 5)
    attack_range := some 1
    initial_mana := some 20
    max_mana := some 90
    crit_chance := some (1 / 4)
    crit_multiplier := some (7 / 5) }

/-- A concrete two-champion catalog for witnesses. -/
def demoLoader : DataLoader :=
  { champions := [luluData, rumbleData]
    ids_nodup := by decide }

/-- The default Set 16 pool size configuration of ChampionPool.__init__. -/
def defaultSizeCfg : Nat → Option Nat := fun cost =>
  if cost = 1 then some 29
  else if cost = 2 then some 22
  else if cost = 3 then some 18
  else if cost = 4 then some 12
  else if cost = 5 then some 10
  else if cost = 6 then some 9
  else none

/-- A concrete partially-drained pool for witnesses: 5 Lulu copies
remain. -/
def demoPool5 : PoolSt :=
  { pool := fun id => if id = "TFT16_Lulu" then some 5 else none
    tier_totals := fun _ => 0 }

/-- A concrete player-with-shared-state for the sell witness: a 2-star
Lulu object (id 0) sits in bench slot 0, the player holds 10 gold. -/
def demoSellSP : SP :=
  { store := fun _ => createChampion luluData 2
    nextId := 1
    pool := demoPool5
    player := { initPlayer defaultConfig 0 with
      bench := some 0 :: List.replicate 8 none
      gold := 10 } }

/-- A concrete state for the full-bench buy witness: nine 2-star Lulu
objects (ids 0..8) fill the bench, Lulu sits in shop slot 0, the player
holds 10 gold.  No two same-id same-star copies of a 1-star Lulu exist,
so buying triggers no upgrade. -/
def demoBuySP : SP :=
  { store := fun _ => createChampion luluData 2
    nextId := 9
    pool := demoPool5
    player := { initPlayer defaultConfig 0 with
      bench := (List.range 9).map (fun i => some i)
      shop := some "TFT16_Lulu" :: List.replicate 4 none
      gold := 10 } }

/-! ### Game rounds (simulator/engine/game_round.py) -/

/-- The ITEM_COMPONENTS list of game_round.py. -/
def ITEM_COMPONENTS : List String :=
  [ "TFT_Item_BFSword"
  , "TFT_Item_RecurveBow"
  , "TFT_Item_ChainVest"
  , "TFT_Item_NegatronCloak"
  , "TFT_Item_NeedlesslyLargeRod"
  , "TFT_Item_TearOfTheGoddess"
  , "TFT_Item_GiantsBelt"
  , "TFT_Item_SparringGloves" ]

/-- One entry of GameRound.combat_results (the per-combat history
dict appended by _run_pvp_phase). -/
structure CombatLog where
  round : Nat
  player1 : Nat
  player2 : Nat
  winner : ℤ
  damage : ℤ
deriving DecidableEq, Repr

/-- GameRound round-level state: current round and stage, the combat
history, and the recent-opponents map used by matchmaking. -/
structure RoundSt where
  current_round : Nat
  current_stage : Nat
  combat_results : List CombatLog
  recent_opponents : Nat → List Nat

/-- The whole engine state touched by the round handlers: the shared
champion store and pool, the players list (player_id equals the list
index, as in the engine's construction), and the round manager. -/
structure EngineSt where
  store : Store
  nextId : Nat
  pool : PoolSt
  players : List PlayerSt
  round : RoundSt
  rng : Nat

/-- Oracle for the random draws of game_round.py: random.choice over
ITEM_COMPONENTS becomes an index stream consumed left to right,
random.shuffle becomes an opaque list transformation, and the
statistical CombatSimulator.resolve_combat (random.gauss based) becomes
a function of the store, the two teams and the round returning
(winner, damage). -/
structure Oracle where
  pickComponent : Nat → Nat
  shuffle : List Nat → List Nat
  resolveCombat : Store → List Nat → List Nat → Nat → ℤ × ℤ

/-- GameRound.get_round_type. -/
def getRoundType (n : Nat) : String :=
  if n ∈ CAROUSEL_ROUNDS then "carousel"
  else if n ∈ MINION_ROUNDS then "minion"
  else "combat"

/-- random.choice(ITEM_COMPONENTS) at stream position n: the oracle's
n-th index taken modulo the component count. -/
def chooseComponent (o : Oracle) (n : Nat) : String :=
  ITEM_COMPONENTS.getD (o.pickComponent n % ITEM_COMPONENTS.length) ""

/-- GameRound._run_carousel_phase: each alive player is granted one
randomly chosen item component (Player.grant_item_component is
spec-modelled, see grantItemComponent); each draw advances the oracle
stream. -/
def runCarouselPhase (o : Oracle) (es : EngineSt) : EngineSt :=
  let r := es.players.foldl
    (fun (acc : List PlayerSt × Nat) p =>
      if p.is_alive then
        (acc.1 ++ [grantItemComponent p (chooseComponent o acc.2)],
          acc.2 + 1)
      else (acc.1 ++ [p], acc.2))
    ([], es.rng)
  { es with players := r.1, rng := r.2 }

/-- The body of the _run_minion_phase player loop: alive players win
(streak update), get the (-1, 0) result entry, and on rounds 2 and 3
one item component. -/
def minionStep (o : Oracle) (roundNo : Nat)
    (acc : List PlayerSt × List (Nat × ℤ × ℤ) × Nat) (p : PlayerSt) :
    List PlayerSt × List (Nat × ℤ × ℤ) × Nat :=
  if p.is_alive then
    let p1 := updateStreak p true
    if roundNo = 2 ∨ roundNo = 3 then
      (acc.1 ++ [grantItemComponent p1 (chooseComponent o acc.2.2)],
        acc.2.1 ++ [(p.player_id, -1, 0)], acc.2.2 + 1)
    else
      (acc.1 ++ [p1], acc.2.1 ++ [(p.player_id, -1, 0)], acc.2.2)
  else (acc.1 ++ [p], acc.2.1, acc.2.2)

/-- GameRound._run_minion_phase: the result dict is the insertion-order
association list of player_id to (opponent, damage) pairs. -/
def runMinionPhase (o : Oracle) (es : EngineSt) :
    EngineSt × List (Nat × ℤ × ℤ) :=
  let r := es.players.foldl (minionStep o es.round.current_round)
    ([], [], es.rng)
  ({ es with players := r.1, rng := r.2.2 }, r.2.1)

/-- Python slice l[-3:]: the last three entries (all of them when the
list is shorter). -/
def lastThree (l : List Nat) : List Nat := l.drop (l.length - 3)

/-- One append into the recent_opponents dict. -/
def recAppend (ro : Nat → List Nat) (k v : Nat) : Nat → List Nat :=
  fun i => if i = k then ro k ++ [v] else ro i

/-- The while-loop of GameRound._determine_matchups: pop the first
available player, pair it with the first candidate not among its three
most recent opponents (else the next available player), record the
pairing on both sides, repeat while at least two players remain.  Fuel
bounds the iterations (the list length suffices since each pass removes
two players); the leftover players are returned for ghost handling. -/
def matchLoop : Nat → (Nat → List Nat) → List Nat →
    List (Nat × ℤ) × (Nat → List Nat) × List Nat
  | 0, ro, available => ([], ro, available)
  | _ + 1, ro, [] => ([], ro, [])
  | _ + 1, ro, [x] => ([], ro, [x])
  | fuel + 1, ro, p1 :: rest =>
    let p2 :=
      match rest.find? (fun c => !((lastThree (ro p1)).contains c)) with
      | some c => c
      | none => rest.headD 0
    let rest2 := rest.erase p2
    let ro2 := recAppend (recAppend ro p1 p2) p2 p1
    let r := matchLoop fuel ro2 rest2
    ((p1, (p2 : ℤ)) :: r.1, r.2)

/-- GameRound._determine_matchups: shuffle the alive ids, run the
pairing loop, and give a leftover odd player a ghost round (opponent
-1). -/
def determineMatchups (o : Oracle) (ro : Nat → List Nat)
    (aliveIds : List Nat) : List (Nat × ℤ) × (Nat → List Nat) :=
  let available := o.shuffle aliveIds
  let r := matchLoop available.length ro available
  match r.2.2 with
  | [] => (r.1, r.2.1)
  | g :: _ => (r.1 ++ [(g, -1)], r.2.1)

/-- Replace the i-th entry of the players list in place. -/
def modifyNth (f : PlayerSt → PlayerSt) :
    List PlayerSt → Nat → List PlayerSt
  | [], _ => []
  | p :: ps, 0 => f p :: ps
  | p :: ps, n + 1 => p :: modifyNth f ps n

/-- Default player for list lookups (never reached on valid indices). -/
def dummyPlayer : PlayerSt := initPlayer defaultConfig 0

/-- One pairing of the _run_pvp_phase loop: ghost rounds win outright;
otherwise combat is resolved between the two boards and damage, result
entries, streaks and the combat log are applied in source order.  The
accumulator carries the players list, the result map and the log. -/
def pvpStep (o : Oracle) (st : Store) (roundNo : Nat)
    (acc : List PlayerSt × List (Nat × ℤ × ℤ) × List CombatLog)
    (m : Nat × ℤ) :
    List PlayerSt × List (Nat × ℤ × ℤ) × List CombatLog :=
  let players := acc.1
  let p1id := m.1
  if m.2 = -1 then
    (modifyNth (fun p => updateStreak p true) players p1id,
      acc.2.1 ++ [(p1id, -1, 0)], acc.2.2)
  else
    let p2id := m.2.toNat
    let team1 := getAllChampionsB (players.getD p1id dummyPlayer).board
    let team2 := getAllChampionsB (players.getD p2id dummyPlayer).board
    let wd := o.resolveCombat st team1 team2 roundNo
    let lg : CombatLog :=
      { round := roundNo, player1 := p1id, player2 := p2id,
        winner := wd.1, damage := wd.2 }
    if wd.1 = 0 then
      let ps1 := modifyNth (fun p => takeDamage p wd.2) players p2id
      let ps2 := modifyNth (fun p => updateStreak p true) ps1 p1id
      let ps3 := modifyNth (fun p => updateStreak p false) ps2 p2id
      (ps3, acc.2.1 ++ [(p2id, (p1id : ℤ), wd.2), (p1id, (p2id : ℤ), 0)],
        acc.2.2 ++ [lg])
    else if wd.1 = 1 then
      let ps1 := modifyNth (fun p => takeDamage p wd.2) players p1id
      let ps2 := modifyNth (fun p => updateStreak p true) ps1 p2id
      let ps3 := modifyNth (fun p => updateStreak p false) ps2 p1id
      (ps3, acc.2.1 ++ [(p1id, (p2id : ℤ), wd.2), (p2id, (p1id : ℤ), 0)],
        acc.2.2 ++ [lg])
    else
      let ps1 := modifyNth (fun p => updateStreak p false) players p1id
      let ps2 := modifyNth (fun p => updateStreak p false) ps1 p2id
      (ps2, acc.2.1 ++ [(p1id, (p2id : ℤ), 0), (p2id, (p1id : ℤ), 0)],
        acc.2.2 ++ [lg])

/-- GameRound._run_pvp_phase. -/
def runPvpPhase (o : Oracle) (es : EngineSt) :
    EngineSt × List (Nat × ℤ × ℤ) :=
  let alive := es.players.filter (fun p => p.is_alive)
  if alive.length ≤ 1 then (es, [])
  else
    let mu := determineMatchups o es.round.recent_opponents
      (alive.map (fun p => p.player_id))
    let r := mu.1.foldl (pvpStep o es.store es.round.current_round)
      (es.players, [], es.round.combat_results)
    ({ es with
        players := r.1,
        round := { es.round with
          combat_results := r.2.2,
          recent_opponents := mu.2 } },
      r.2.1)

/-- GameRound.run_combat_phase: dispatch on the round type; carousel
rounds return the empty result map. -/
def runCombatPhase (o : Oracle) (es : EngineSt) :
    EngineSt × List (Nat × ℤ × ℤ) :=
  let rt := getRoundType es.round.current_round
  if rt = "carousel" then (runCarouselPhase o es, [])
  else if rt = "minion" then runMinionPhase o es
  else runPvpPhase o es

/-- Dict-style counting used by Player.update_active_traits: an
existing key is bumped in place, a new key appended. -/
def bumpTrait : List (String × Nat) → String → List (String × Nat)
  | [], t => [(t, 1)]
  | (s, n) :: rest, t =>
    if s = t then (s, n + 1) :: rest else (s, n) :: bumpTrait rest t

/-- The trait catalogue behind get_trait_by_name and get_tier_effect:
for a trait name, optionally a predicate telling whether some tier
effect is active at a given unit count. -/
def TraitLookup : Type := String → Option (Nat → Bool)

/-- Player.update_active_traits: count board traits, then keep those
with an active tier effect. -/
def updateActiveTraits (tl : TraitLookup) (st : Store) (p : PlayerSt) :
    PlayerSt :=
  let counts := (getAllChampionsB p.board).foldl
    (fun acc cid => ((st cid).data.traits).foldl bumpTrait acc) []
  let active := counts.foldl
    (fun acc e =>
      match tl e.1 with
      | some eff => if eff e.2 then acc ++ [e] else acc
      | none => acc) []
  { p with active_traits := active }

/-- Player.reset_for_combat: reset every champion on the board through
the shared store. -/
def playerResetForCombat (st : Store) (p : PlayerSt) : Store :=
  (getAllChampionsB p.board).foldl
    (fun st2 cid => updStore st2 cid resetForCombat) st

/-- GameRound.end_planning_phase: for each alive player, recompute
active traits, then reset its board champions for combat. -/
def endPlanningPhase (tl : TraitLookup) (es : EngineSt) : EngineSt :=
  let r := es.players.foldl
    (fun (acc : List PlayerSt × Store) p =>
      if p.is_alive then
        let p1 := updateActiveTraits tl acc.2 p
        (acc.1 ++ [p1], playerResetForCombat acc.2 p1)
      else (acc.1 ++ [p], acc.2))
    ([], es.store)
  { es with players := r.1, store := r.2 }

/-- TFTEventEngine._handle_end_planning: run end_planning_phase; the
handler then schedules START_COMBAT 0.1 time units later, so the next
round-level step on this path is _handle_start_combat. -/
def handleEndPlanning (tl : TraitLookup) (es : EngineSt) : EngineSt :=
  endPlanningPhase tl es

/-- TFTEventEngine._handle_start_combat: run the round's combat phase;
the result map is handed on to the END_COMBAT event. -/
def handleStartCombat (o : Oracle) (es : EngineSt) :
    EngineSt × List (Nat × ℤ × ℤ) :=
  runCombatPhase o es

/-- Pointwise description of the carousel fold, used in its
correctness proof. -/
def carouselMap (o : Oracle) : Nat → List PlayerSt → List PlayerSt
  | _, [] => []
  | n, p :: ps =>
    if p.is_alive then
      grantItemComponent p (chooseComponent o n) :: carouselMap o (n + 1) ps
    else p :: carouselMap o n ps

/-! ### The event queue (rl_env/event_engine.py): Python heapq over
events ordered solely by timestamp -/

/-- Event of event_engine.py: only the timestamp takes part in the
dataclass ordering (every other field is compare=False).  The tag
stands for the non-compared payload and is used below to record
insertion order. -/
structure Ev where
  ts : ℚ
  tag : Nat
deriving DecidableEq, Repr

/-- Event < Event: by timestamp alone. -/
def evLt (a b : Ev) : Bool := a.ts < b.ts

/-- Placeholder for out-of-range list reads (never reached on the
in-range reads the algorithms perform). -/
def dummyEv : Ev := { ts := 0, tag := 0 }

/-- The loop of heapq._siftdown: bubble the new item towards the root
while it compares strictly below its parent.  Fuel pos suffices since
the position strictly decreases each pass. -/
def siftdownAux : Nat → List Ev → Nat → Nat → Ev → List Ev
  | 0, heap, _, pos, newitem => heap.set pos newitem
  | fuel + 1, heap, startpos, pos, newitem =>
    if startpos < pos then
      let parentpos := (pos - 1) / 2
      let parent := heap.getD parentpos dummyEv
      if evLt newitem parent then
        siftdownAux fuel (heap.set pos parent) startpos parentpos newitem
      else heap.set pos newitem
    else heap.set pos newitem

/-- heapq._siftdown. -/
def siftdown (heap : List Ev) (startpos pos : Nat) : List Ev :=
  siftdownAux pos heap startpos pos (heap.getD pos dummyEv)

/-- The loop of heapq._siftup: move the smaller child up until hitting
a leaf, returning the rearranged heap and the final vacant position.
Fuel is the heap length (the position strictly increases). -/
def siftupAux : Nat → List Ev → Nat → List Ev × Nat
  | 0, heap, pos => (heap, pos)
  | fuel + 1, heap, pos =>
    let childpos := 2 * pos + 1
    if childpos < heap.length then
      let rightpos := childpos + 1
      let child :=
        if rightpos < heap.length &&
            !evLt (heap.getD childpos dummyEv) (heap.getD rightpos dummyEv)
        then rightpos else childpos
      siftupAux fuel (heap.set pos (heap.getD child dummyEv)) child
    else (heap, pos)

/-- heapq._siftup: bubble the leaf item placed at pos down to a leaf,
put the new item there, then restore upwards with _siftdown. -/
def siftup (heap : List Ev) (pos : Nat) : List Ev :=
  let newitem := heap.getD pos dummyEv
  let r := siftupAux heap.length heap pos
  siftdown (r.1.set r.2 newitem) pos r.2

/-- heapq.heappush: append, then sift down from the new last slot. -/
def heappush (heap : List Ev) (item : Ev) : List Ev :=
  siftdown (heap ++ [item]) 0 heap.length

/-- heapq.heappop: pop the last element, move it to the root, return
the old root and sift the moved element up. -/
def heappop (heap : List Ev) : Option (Ev × List Ev) :=
  match heap with
  | [] => none
  | _ :: _ =>
    let lastelt := heap.getLastD dummyEv
    let rest := heap.dropLast
    match rest with
    | [] => some (lastelt, [])
    | _ :: _ =>
      let returnitem := rest.getD 0 dummyEv
      some (returnitem, siftup (rest.set 0 lastelt) 0)

/-- EventEngine queue state: the heap and the clock. -/
structure QueueSt where
  event_queue : List Ev
  current_time : ℚ
deriving DecidableEq, Repr

/-- EventEngine.schedule_event: build the Event and heappush it. -/
def scheduleEvent (q : QueueSt) (timestamp : ℚ) (tag : Nat) : QueueSt :=
  { q with event_queue := heappush q.event_queue { ts := timestamp, tag := tag } }

/-- EventEngine.process_next_event: pop the earliest event and advance
the clock to its timestamp (handler dispatch elided; the popped event
is returned alongside the new state). -/
def processNextEvent (q : QueueSt) : Option (Ev × QueueSt) :=
  match heappop q.event_queue with
  | none => none
  | some (e, rest) =>
    some (e, { event_queue := rest, current_time := e.ts })

/-- Four events scheduled at one timestamp in tag order 1, 2, 3, 4. -/
def demoQueue : QueueSt :=
  scheduleEvent (scheduleEvent (scheduleEvent (scheduleEvent
    { event_queue := [], current_time := 0 } 1 1) 1 2) 1 3) 1 4

/-- A concrete engine state for the carousel witness: player 0 alive,
player 1 eliminated, at round 9. -/
def demoEngine : EngineSt :=
  { store := fun _ => createChampion luluData 1
    nextId := 0
    pool := demoPool5
    players :=
      [ initPlayer defaultConfig 0
      , { initPlayer defaultConfig 1 with is_alive := false } ]
    round :=
      { current_round := 9, current_stage := 2
        combat_results := [], recent_opponents := fun _ => [] }
    rng := 0 }

/-- A deterministic oracle for witnesses: component stream constantly
0, identity shuffle, player-1 side always wins for 10 damage. -/
def demoOracle : Oracle :=
  { pickComponent := fun _ => 0
    shuffle := fun l => l
    resolveCombat := fun _ _ _ _ => (0, 10) }

end TFT

namespace TFT

/-! ### Theorems: champion pool conservation (C1) -/

/-- The update applied per catalog entry by _initialize_pool. -/
def initPoolUpd (sizeCfg : Nat → Option Nat) (ps : PoolSt) (cd : ChampionData) :
    PoolSt :=
  { pool := fun id =>
      if id = cd.champion_id then some (cfgCopies sizeCfg cd.cost)
      else ps.pool id
    tier_totals := fun t =>
      if t = cd.cost then ps.tier_totals t + cfgCopies sizeCfg cd.cost
      else ps.tier_totals t }

theorem initPool_eq_foldl (dl : DataLoader) (sizeCfg : Nat → Option Nat) :
    initPool dl sizeCfg
      = dl.champions.foldl (initPoolUpd sizeCfg)
          { pool := fun _ => none, tier_totals := fun _ => 0 } := rfl

theorem foldl_initPoolUpd_pool (sizeCfg : Nat → Option Nat) :
    ∀ (l : List ChampionData) (ps : PoolSt) (id : String),
      (l.foldl (initPoolUpd sizeCfg) ps).pool id
        = match l.reverse.find? (fun cd => cd.champion_id = id) with
          | some cd => some (cfgCopies sizeCfg cd.cost)
          | none => ps.pool id := by
  intro l
  induction l with
  | nil => intro ps id; rfl
  | cons cd rest ih =>
    intro ps id
    simp only [List.foldl_cons, List.reverse_cons, List.find?_append]
    rw [ih]
    cases hfind : rest.reverse.find? (fun cd2 => decide (cd2.champion_id = id)) with
    | some cd2 => simp [hfind]
    | none =>
      simp only [hfind, Option.none_or]
      by_cases hid : cd.champion_id = id
      · subst hid
        simp [initPoolUpd, List.find?]
      · have hdec : (decide (cd.champion_id = id)) = false := by
          simp [hid]
        simp [initPoolUpd, List.find?, hdec, Ne.symm hid]

theorem find?_id_unique (dl : DataLoader) (id : String) {cd cd2 : ChampionData}
    (h1 : cd ∈ dl.champions) (h2 : cd2 ∈ dl.champions)
    (e1 : cd.champion_id = id) (e2 : cd2.champion_id = id) : cd = cd2 := by
  have hinj := List.inj_on_of_nodup_map dl.ids_nodup
  exact hinj h1 h2 (by rw [e1, e2])

theorem initPool_pool_eq (dl : DataLoader) (sizeCfg : Nat → Option Nat)
    (id : String) :
    (initPool dl sizeCfg).pool id
      = (dl.byId id).map (fun cd => cfgCopies sizeCfg cd.cost) := by
  rw [initPool_eq_foldl, foldl_initPoolUpd_pool]
  cases hfwd : dl.byId id with
  | some cd =>
    have hmem : cd ∈ dl.champions := List.mem_of_find?_eq_some hfwd
    have hp : cd.champion_id = id := by
      have := List.find?_some hfwd
      exact of_decide_eq_true this
    have hsome : (dl.champions.reverse.find?
        (fun cd2 => cd2.champion_id = id)).isSome := by
      apply List.find?_isSome.mpr
      exact ⟨cd, List.mem_reverse.mpr hmem, by simp [hp]⟩
    cases hrev : dl.champions.reverse.find? (fun cd2 => cd2.champion_id = id) with
    | some cd2 =>
      have hmem2 : cd2 ∈ dl.champions :=
        List.mem_reverse.mp (List.mem_of_find?_eq_some hrev)
      have hp2a := List.find?_some hrev
      have hp2 : cd2.champion_id = id := of_decide_eq_true hp2a
      have : cd = cd2 := find?_id_unique dl id hmem hmem2 hp hp2
      subst this
      simp [hrev]
    | none => rw [hrev] at hsome; simp at hsome
  | none =>
    have hnone : ∀ cd ∈ dl.champions.reverse,
        ¬ ((fun cd2 => decide (cd2.champion_id = id)) cd = true) := by
      intro cd hmem hp
      have hmem2 : cd ∈ dl.champions := List.mem_reverse.mp hmem
      have : dl.byId id ≠ none := by
        apply Option.isSome_iff_ne_none.mp
        exact List.find?_isSome.mpr ⟨cd, hmem2, hp⟩
      exact this hfwd
    have hrevnone : dl.champions.reverse.find?
        (fun cd2 => decide (cd2.champion_id = id)) = none :=
      List.find?_eq_none.mpr hnone
    simp [hrevnone]

/-- The conservation invariant carried through the acquire/release
induction: for every catalog champion, the pool entry exists, available
plus acquired equals the configured count, and available never exceeds
it. -/
def PoolInv (dl : DataLoader) (sizeCfg : Nat → Option Nat)
    (s : PoolSt × (String → ℤ)) : Prop :=
  ∀ id cd, dl.byId id = some cd →
    ∃ n, s.1.pool id = some n ∧
      (n : ℤ) + s.2 id = (cfgCopies sizeCfg cd.cost : ℤ) ∧
      n ≤ cfgCopies sizeCfg cd.cost

theorem poolInv_init (dl : DataLoader) (sizeCfg : Nat → Option Nat) :
    PoolInv dl sizeCfg (initPool dl sizeCfg, fun _ => 0) := by
  intro id cd hid
  refine ⟨cfgCopies sizeCfg cd.cost, ?_, by simp, le_refl _⟩
  rw [initPool_pool_eq, hid]
  rfl

theorem poolInv_step (dl : DataLoader) (sizeCfg : Nat → Option Nat)
    (s : PoolSt × (String → ℤ)) (op : PoolOp)
    (h : PoolInv dl sizeCfg s) :
    PoolInv dl sizeCfg (poolStep dl sizeCfg s op) := by
  intro id cd hid
  obtain ⟨n, hpool, hsum, hle⟩ := h id cd hid
  cases op with
  | acq id2 =>
    by_cases heq : id = id2
    · subst heq
      simp only [poolStep, acquire]
      by_cases havail : isAvailable s.1 id = true
      · have hn : getAvailable s.1 id = n := by
          simp [getAvailable, hpool]
        have hnpos : 0 < n := by
          have := of_decide_eq_true havail
          rwa [hn] at this
        refine ⟨n - 1, ?_, ?_, by omega⟩
        · cases hid2 : dl.byId id with
          | some cd2 => simp [havail, hid2, hn]
          | none => simp [havail, hid2, hn]
        · cases hid2 : dl.byId id with
          | some cd2 =>
            simp only [havail, if_true, hid2, hn]
            omega
          | none =>
            simp only [havail, if_true, hid2, hn]
            omega
      · simp only [Bool.not_eq_true] at havail
        simp only [havail, Bool.false_eq_true, if_false]
        exact ⟨n, hpool, hsum, hle⟩
    · simp only [poolStep, acquire]
      by_cases havail : isAvailable s.1 id2 = true
      · simp only [havail, if_true]
        cases hid2 : dl.byId id2 with
        | some cd2 =>
          refine ⟨n, ?_, ?_, hle⟩
          · simpa [heq] using hpool
          · simpa [heq] using hsum
        | none =>
          refine ⟨n, ?_, ?_, hle⟩
          · simpa [heq] using hpool
          · simpa [heq] using hsum
      · simp only [Bool.not_eq_true] at havail
        simp only [havail, Bool.false_eq_true, if_false]
        exact ⟨n, hpool, hsum, hle⟩
  | rel id2 =>
    by_cases heq : id = id2
    · subst heq
      simp only [poolStep, release, hpool, hid]
      by_cases hlt : n < cfgCopies sizeCfg cd.cost
      · simp only [hlt, if_true]
        refine ⟨n + 1, by simp, ?_, by omega⟩
        push_cast
        omega
      · simp only [hlt, if_false]
        exact ⟨n, hpool, hsum, hle⟩
    · simp only [poolStep, release]
      cases hp2 : s.1.pool id2 with
      | none => exact ⟨n, hpool, hsum, hle⟩
      | some m =>
        cases hid2 : dl.byId id2 with
        | none => exact ⟨n, hpool, hsum, hle⟩
        | some cd2 =>
          by_cases hlt : m < cfgCopies sizeCfg cd2.cost
          · simp only [hlt, if_true]
            refine ⟨n, ?_, ?_, hle⟩
            · simpa [heq] using hpool
            · simpa [heq] using hsum
          · simp only [hlt, if_false]
            exact ⟨n, hpool, hsum, hle⟩

theorem poolInv_run (dl : DataLoader) (sizeCfg : Nat → Option Nat)
    (ops : List PoolOp) :
    PoolInv dl sizeCfg (poolRun dl sizeCfg ops) := by
  have : ∀ (l : List PoolOp) (s : PoolSt × (String → ℤ)),
      PoolInv dl sizeCfg s →
      PoolInv dl sizeCfg (l.foldl (poolStep dl sizeCfg) s) := by
    intro l
    induction l with
    | nil => intro s hs; exact hs
    | cons op rest ih =>
      intro s hs
      exact ih _ (poolInv_step dl sizeCfg s op hs)
  exact this ops _ (poolInv_init dl sizeCfg)

/-- C1. Pool conservation: for every champion id in the catalog, after any
finite sequence of acquire and release calls on a freshly initialized
ChampionPool, the available count plus the number of successfully acquired
and not-yet-released copies equals the initially configured count; the
count never exceeds the configured per-cost maximum (and, being a count,
never goes below 0); and a release attempted when the count already sits at
that maximum returns False and leaves the pool unchanged. -/
theorem pool_conservation (dl : DataLoader) (sizeCfg : Nat → Option Nat)
    (ops : List PoolOp) (id : String) (cd : ChampionData)
    (hid : dl.byId id = some cd) :
    (∃ n, (poolRun dl sizeCfg ops).1.pool id = some n ∧
      (n : ℤ) + (poolRun dl sizeCfg ops).2 id
        = (cfgCopies sizeCfg cd.cost : ℤ) ∧
      n ≤ cfgCopies sizeCfg cd.cost) ∧
    (∀ ps : PoolSt, ps.pool id = some (cfgCopies sizeCfg cd.cost) →
      release dl sizeCfg ps id = (ps, false)) := by
  constructor
  · exact poolInv_run dl sizeCfg ops id cd hid
  · intro ps hmax
    simp [release, hmax, hid]

/-- Witness for C1 at a concrete catalog, configuration and op sequence:
two successful acquires and one release of Lulu leave 28 copies of the
29 configured, with one copy held. -/
theorem pool_conservation_witness :
    demoLoader.byId "TFT16_Lulu" = some luluData ∧
    ((∃ n, (poolRun demoLoader defaultSizeCfg
        [PoolOp.acq "TFT16_Lulu", PoolOp.acq "TFT16_Lulu",
         PoolOp.rel "TFT16_Lulu"]).1.pool "TFT16_Lulu" = some n ∧
      (n : ℤ) + (poolRun demoLoader defaultSizeCfg
        [PoolOp.acq "TFT16_Lulu", PoolOp.acq "TFT16_Lulu",
         PoolOp.rel "TFT16_Lulu"]).2 "TFT16_Lulu"
        = (cfgCopies defaultSizeCfg luluData.cost : ℤ) ∧
      n ≤ cfgCopies defaultSizeCfg luluData.cost) ∧
    (∀ ps : PoolSt,
      ps.pool "TFT16_Lulu" = some (cfgCopies defaultSizeCfg luluData.cost) →
      release demoLoader defaultSizeCfg ps "TFT16_Lulu" = (ps, false))) :=
  ⟨by rfl,
   pool_conservation demoLoader defaultSizeCfg
     [PoolOp.acq "TFT16_Lulu", PoolOp.acq "TFT16_Lulu",
      PoolOp.rel "TFT16_Lulu"] "TFT16_Lulu" luluData (by rfl)⟩

/-! ### Theorems: buy_xp preconditions (C7) -/

/-- C7. buy_xp succeeds exactly when the player's gold is at least the
configured XP cost and the level is strictly below the maximum level;
whenever either precondition fails it returns False and leaves the whole
player state (in particular gold, XP and level) unchanged.  A level-1
player with 0 gold therefore cannot buy XP. -/
theorem buyXp_spec (cfg : Config) (p : PlayerSt) :
    ((buyXp cfg p).2 = true ↔ (cfg.xp_cost ≤ p.gold ∧ p.level < cfg.max_level)) ∧
    ((buyXp cfg p).2 = false → (buyXp cfg p).1 = p) := by
  constructor
  · constructor
    · intro h
      by_cases h1 : p.gold < cfg.xp_cost
      · simp [buyXp, h1] at h
      · by_cases h2 : cfg.max_level ≤ p.level
        · simp [buyXp, h1, h2] at h
        · exact ⟨le_of_not_lt h1, lt_of_not_le h2⟩
    · rintro ⟨h1, h2⟩
      simp [buyXp, not_lt.mpr h1, not_le.mpr h2]
  · intro h
    by_cases h1 : p.gold < cfg.xp_cost
    · simp [buyXp, h1]
    · by_cases h2 : cfg.max_level ≤ p.level
      · simp [buyXp, h1, h2]
      · simp [buyXp, h1, h2] at h

/-- Witness for C7: a freshly initialized player (level 1, 0 gold) under
the default configuration fails to buy XP and is left unchanged. -/
theorem buyXp_spec_witness :
    (buyXp defaultConfig (initPlayer defaultConfig 0)).2 = false ∧
    (buyXp defaultConfig (initPlayer defaultConfig 0)).1
      = initPlayer defaultConfig 0 := by
  have h := buyXp_spec defaultConfig (initPlayer defaultConfig 0)
  have hfail : (buyXp defaultConfig (initPlayer defaultConfig 0)).2 = false := by
    cases hb : (buyXp defaultConfig (initPlayer defaultConfig 0)).2 with
    | false => rfl
    | true =>
      have := h.1.mp hb
      have hgold : (initPlayer defaultConfig 0).gold = 0 := rfl
      have hcost : defaultConfig.xp_cost = 4 := rfl
      rw [hgold, hcost] at this
      exact absurd this.1 (by norm_num)
  exact ⟨hfail, h.2 hfail⟩

/-! ### Theorems: selling champions (C6) -/

theorem byId_champion_id (dl : DataLoader) (id : String) (cd : ChampionData)
    (h : dl.byId id = some cd) : cd.champion_id = id := by
  have := List.find?_some h
  exact of_decide_eq_true this

theorem releaseN_pool (dl : DataLoader) (sizeCfg : Nat → Option Nat)
    (id : String) (cd : ChampionData) (hid : dl.byId id = some cd) :
    ∀ (n : Nat) (ps : PoolSt) (k : Nat), ps.pool id = some k →
      k + n ≤ cfgCopies sizeCfg cd.cost →
      (releaseN dl sizeCfg ps id n).pool id = some (k + n) := by
  intro n
  induction n with
  | zero => intro ps k hk _; simpa using hk
  | succ m ih =>
    intro ps k hk hle
    have hlt : k < cfgCopies sizeCfg cd.cost := by omega
    have hrel : (release dl sizeCfg ps id).1.pool id = some (k + 1) := by
      simp [release, hk, hid, hlt]
    have := ih (release dl sizeCfg ps id).1 (k + 1) hrel (by omega)
    rw [releaseN]
    rw [this]
    congr 1
    omega

/-- C6. Selling: for a champion with star level s held at a bench slot or
board cell, sell_champion succeeds, performs 3^(s-1) pool releases (which,
whenever the pool can absorb them, add exactly 3^(s-1) copies of the
champion's id), and credits gold equal to the champion's base cost, a
formula in which the star level does not occur; selling at an
out-of-range or empty position returns False and leaves the state
unchanged. -/
theorem sell_champion_spec (dl : DataLoader) (sizeCfg : Nat → Option Nat)
    (sp : SP) (cd : ChampionData) (k : Nat) :
    (∀ col : Int, ∀ cid : Nat,
      0 ≤ col → col < (sp.player.bench.length : Int) →
      sp.player.bench.getD col.toNat none = some cid →
      dl.byId (sp.store cid).data.champion_id = some cd →
      sp.pool.pool (sp.store cid).data.champion_id = some k →
      k + 3 ^ ((sp.store cid).stars - 1) ≤ cfgCopies sizeCfg cd.cost →
      (sellChampion dl sizeCfg sp (-1, col)).2 = true ∧
      (sellChampion dl sizeCfg sp (-1, col)).1.player.gold
        = sp.player.gold + ((sp.store cid).data.cost : ℤ) ∧
      (sellChampion dl sizeCfg sp (-1, col)).1.pool.pool
          (sp.store cid).data.champion_id
        = some (k + 3 ^ ((sp.store cid).stars - 1)) ∧
      (sellChampion dl sizeCfg sp (-1, col)).1.player.bench
        = sp.player.bench.set col.toNat none) ∧
    (∀ r c : Int, ∀ cid : Nat,
      ¬ (r = -1) →
      isValidPos sp.player.board r c = true →
      sp.player.board.grid (r, c) = some cid →
      dl.byId (sp.store cid).data.champion_id = some cd →
      sp.pool.pool (sp.store cid).data.champion_id = some k →
      k + 3 ^ ((sp.store cid).stars - 1) ≤ cfgCopies sizeCfg cd.cost →
      (sellChampion dl sizeCfg sp (r, c)).2 = true ∧
      (sellChampion dl sizeCfg sp (r, c)).1.player.gold
        = sp.player.gold + ((sp.store cid).data.cost : ℤ) ∧
      (sellChampion dl sizeCfg sp (r, c)).1.pool.pool
          (sp.store cid).data.champion_id
        = some (k + 3 ^ ((sp.store cid).stars - 1))) ∧
    (∀ col : Int,
      (¬ (0 ≤ col ∧ col < (sp.player.bench.length : Int)) ∨
        sp.player.bench.getD col.toNat none = none) →
      sellChampion dl sizeCfg sp (-1, col) = (sp, false)) ∧
    (∀ r c : Int,
      ¬ (r = -1) →
      (¬ (isValidPos sp.player.board r c = true) ∨
        sp.player.board.grid (r, c) = none) →
      sellChampion dl sizeCfg sp (r, c) = (sp, false)) := by
  refine ⟨?_, ?_, ?_, ?_⟩
  · intro col cid h0 hlen hslot hid hpool hle
    have hcond : (0 ≤ col ∧ col < (sp.player.bench.length : Int)) := ⟨h0, hlen⟩
    have hred : sellChampion dl sizeCfg sp (-1, col)
        = sellChampionInternal dl sizeCfg
            { sp with player :=
                { sp.player with bench := sp.player.bench.set col.toNat none } }
            cid := by
      simp only [sellChampion]
      rw [hslot]
      simp [hcond]
    rw [hred]
    refine ⟨rfl, rfl, ?_, rfl⟩
    exact releaseN_pool dl sizeCfg _ cd hid _ _ k hpool hle
  · intro r c cid hr hval hgrid hid hpool hle
    have hred : sellChampion dl sizeCfg sp (r, c)
        = sellChampionInternal dl sizeCfg
            { sp with
                store := (boardRemove sp.store sp.player.board r c).1
                player := { sp.player with
                  board := (boardRemove sp.store sp.player.board r c).2.1 } }
            cid := by
      simp [sellChampion, hr, boardRemove, hval, hgrid]
    rw [hred]
    have hst : ((boardRemove sp.store sp.player.board r c).1 cid).data
        = (sp.store cid).data := by
      simp [boardRemove, hval, hgrid, updStore]
    have hstars : ((boardRemove sp.store sp.player.board r c).1 cid).stars
        = (sp.store cid).stars := by
      simp [boardRemove, hval, hgrid, updStore]
    refine ⟨rfl, ?_, ?_⟩
    · simp [sellChampionInternal, hst]
    · simp only [sellChampionInternal]
      rw [hst, hstars]
      exact releaseN_pool dl sizeCfg _ cd hid _ _ k hpool hle
  · intro col hfail
    cases hfail with
    | inl h => simp [sellChampion, h]
    | inr h =>
      by_cases hcond : (0 ≤ col ∧ col < (sp.player.bench.length : Int))
      · simp only [sellChampion]
        rw [h]
        simp [hcond]
      · simp [sellChampion, hcond]
  · intro r c hr hfail
    cases hfail with
    | inl h =>
      have : boardRemove sp.store sp.player.board r c
          = (sp.store, sp.player.board, none) := by
        simp [boardRemove, h]
      simp [sellChampion, hr, this]
    | inr h =>
      by_cases hval : isValidPos sp.player.board r c = true
      · have : boardRemove sp.store sp.player.board r c
            = (sp.store, sp.player.board, none) := by
          simp [boardRemove, hval, h]
        simp [sellChampion, hr, this]
      · have : boardRemove sp.store sp.player.board r c
            = (sp.store, sp.player.board, none) := by
          simp [boardRemove, hval]
        simp [sellChampion, hr, this]

/-- Witness for C6: selling the 2-star Lulu on bench slot 0 succeeds,
credits 1 gold (the base cost, although the unit is 2-star) and returns
3 copies to the pool (5 becomes 8). -/
theorem sell_champion_spec_witness :
    demoSellSP.player.bench.getD 0 none = some 0 ∧
    demoLoader.byId ((demoSellSP.store 0).data.champion_id) = some luluData ∧
    demoSellSP.pool.pool ((demoSellSP.store 0).data.champion_id) = some 5 ∧
    5 + 3 ^ ((demoSellSP.store 0).stars - 1)
      ≤ cfgCopies defaultSizeCfg luluData.cost ∧
    ((sellChampion demoLoader defaultSizeCfg demoSellSP (-1, 0)).2 = true ∧
     (sellChampion demoLoader defaultSizeCfg demoSellSP (-1, 0)).1.player.gold
       = demoSellSP.player.gold + ((demoSellSP.store 0).data.cost : ℤ) ∧
     (sellChampion demoLoader defaultSizeCfg demoSellSP (-1, 0)).1.pool.pool
         ((demoSellSP.store 0).data.champion_id)
       = some (5 + 3 ^ ((demoSellSP.store 0).stars - 1)) ∧
     (sellChampion demoLoader defaultSizeCfg demoSellSP (-1, 0)).1.player.bench
       = demoSellSP.player.bench.set (0 : Int).toNat none) :=
  ⟨rfl, rfl, rfl, by decide,
   (sell_champion_spec demoLoader defaultSizeCfg demoSellSP luluData 5).1
     0 0 (by decide) (by decide) rfl rfl rfl (by decide)⟩

/-! ### Theorems: buying into a full bench auto-sells (C10) -/

/-- C10. Buying from a valid, non-empty, affordable, in-stock shop slot
with a full bench and no star upgrade available returns True: the new
champion is auto-sold, so gold and the pool count for that id are
unchanged net of the purchase, the bench is untouched, and the shop slot
is cleared. -/
theorem buy_full_bench_autosell (dl : DataLoader) (sizeCfg : Nat → Option Nat)
    (cfg : Config) (sp : SP) (idx : Int) (idStr : String)
    (cdata : ChampionData) (a : Nat)
    (hidx : 0 ≤ idx ∧ idx < (cfg.shop_size : Int))
    (hslot : sp.player.shop.getD idx.toNat none = some idStr)
    (hcat : dl.byId idStr = some cdata)
    (hgold : (cdata.cost : ℤ) ≤ sp.player.gold)
    (hpool : sp.pool.pool idStr = some a)
    (hapos : 0 < a)
    (hamax : a ≤ cfgCopies sizeCfg cdata.cost)
    (hbench : ∀ slot ∈ sp.player.bench, slot.isSome = true)
    (hfreshB : ∀ c ∈ sp.player.bench.filterMap id, c < sp.nextId)
    (hfreshG : ∀ c ∈ getAllChampionsB sp.player.board, c < sp.nextId)
    (hnoupg :
      ((sp.player.bench.filterMap id).filter
          (fun c => decide ((sp.store c).data.champion_id = cdata.champion_id) &&
            decide ((sp.store c).stars = 1)) ++
        (getAllChampionsB sp.player.board).filter
          (fun c => decide ((sp.store c).data.champion_id = cdata.champion_id) &&
            decide ((sp.store c).stars = 1))).length < 2) :
    (buyChampionFromShop dl sizeCfg cfg sp idx).2 = true ∧
    (buyChampionFromShop dl sizeCfg cfg sp idx).1.player.gold
      = sp.player.gold ∧
    (buyChampionFromShop dl sizeCfg cfg sp idx).1.pool.pool idStr = some a ∧
    (buyChampionFromShop dl sizeCfg cfg sp idx).1.player.bench
      = sp.player.bench ∧
    (buyChampionFromShop dl sizeCfg cfg sp idx).1.player.shop
      = sp.player.shop.set idx.toNat none := by
  have hidcd : cdata.champion_id = idStr := byId_champion_id dl idStr cdata hcat
  have hav : isAvailable sp.pool idStr = true := by
    simp [isAvailable, getAvailable, hpool, hapos]
  have hngold : ¬ (sp.player.gold < (cdata.cost : ℤ)) := not_lt.mpr hgold
  have hacq : acquire dl sp.pool idStr
      = ({ pool := fun j =>
             if j = idStr then some (getAvailable sp.pool idStr - 1)
             else sp.pool.pool j
           tier_totals := fun t =>
             if t = cdata.cost then sp.pool.tier_totals t - 1
             else sp.pool.tier_totals t }, true) := by
    simp [acquire, hav, hcat]
  have hgetav : getAvailable sp.pool idStr = a := by
    simp [getAvailable, hpool]
  -- the state right after payment and champion creation
  set p1 : PlayerSt := { sp.player with
    gold := sp.player.gold - (cdata.cost : ℤ)
    gold_spent := sp.player.gold_spent + (cdata.cost : ℤ) } with hp1
  set sp2 : SP :=
    { store := fun j =>
        if j = sp.nextId then createChampion cdata 1 else sp.store j
      nextId := sp.nextId + 1
      pool := (acquire dl sp.pool idStr).1
      player := p1 } with hsp2
  have hnewdata : (sp2.store sp.nextId) = createChampion cdata 1 := by
    simp [hsp2]
  have hsame : sameChampions sp2 sp.nextId
      = (sp.player.bench.filterMap id).filter
          (fun c => decide ((sp.store c).data.champion_id = cdata.champion_id) &&
            decide ((sp.store c).stars = 1)) ++
        (getAllChampionsB sp.player.board).filter
          (fun c => decide ((sp.store c).data.champion_id = cdata.champion_id) &&
            decide ((sp.store c).stars = 1)) := by
    have hb2 : sp2.player.bench = sp.player.bench := by simp [hsp2, hp1]
    have hg2 : sp2.player.board = sp.player.board := by simp [hsp2, hp1]
    simp only [sameChampions, hb2, hg2]
    congr 1
    · apply List.filter_congr
      intro c hc
      have hlt : c < sp.nextId := hfreshB c hc
      have hne : ¬ (c = sp.nextId) := by omega
      simp [hsp2, hne, createChampion, updateBaseStats]
    · apply List.filter_congr
      intro c hc
      have hlt : c < sp.nextId := hfreshG c hc
      have hne : ¬ (c = sp.nextId) := by omega
      simp [hsp2, hne, createChampion, updateBaseStats]
  have hlen : (sameChampions sp2 sp.nextId).length < 2 := by
    rw [hsame]
    simpa [List.length_append] using hnoupg
  have hchk : checkForUpgrade sp2 sp.nextId = (sp2, false) := by
    simp only [checkForUpgrade]
    rw [if_neg (by omega : ¬ (2 ≤ (sameChampions sp2 sp.nextId).length))]
  have hfind : sp2.player.bench.findIdx? (fun slot => slot.isNone) = none := by
    rw [List.findIdx?_eq_none_iff]
    intro x hx
    have hx2 : x ∈ sp.player.bench := by
      have hb2 : sp2.player.bench = sp.player.bench := by simp [hsp2, hp1]
      rwa [hb2] at hx
    have := hbench x hx2
    simp [Option.isNone_eq_false_iff, Option.isSome_iff_ne_none] at this ⊢
    exact this
  have haddno : addToBenchNoUpgrade sp2.player sp.nextId = (sp2.player, false) := by
    simp [addToBenchNoUpgrade, hfind]
  have haddB : addToBench sp2 sp.nextId = (sp2, false) := by
    simp [addToBench, hchk, haddno]
  have hrelpool : (release dl sizeCfg (acquire dl sp.pool idStr).1 idStr).1.pool idStr
      = some a := by
    rw [hacq]
    have hlt : a - 1 < cfgCopies sizeCfg cdata.cost := by omega
    simp only [release, hgetav, hcat]
    simp [hlt]
    omega
  have hsell : sellChampionInternal dl sizeCfg sp2 sp.nextId
      = ({ sp2 with
            pool := releaseN dl sizeCfg sp2.pool cdata.champion_id 1
            player := { sp2.player with
              gold := sp2.player.gold + (cdata.cost : ℤ) } }, true) := by
    simp only [sellChampionInternal, hnewdata]
    norm_num [createChampion, updateBaseStats]
  have hacq2 : (acquire dl sp.pool idStr).2 = true := by rw [hacq]
  have hred : buyChampionFromShop dl sizeCfg cfg sp idx
      = (let t := addToBench sp2 sp.nextId
         let sp4 := if t.2 = true then t.1
           else (sellChampionInternal dl sizeCfg t.1 sp.nextId).1
         ({ sp4 with player := { sp4.player with
              shop := sp4.player.shop.set idx.toNat none } }, true)) := by
    rw [hsp2, hp1]
    simp only [buyChampionFromShop]
    rw [if_neg (not_not_intro hidx), hslot]
    simp only [hcat, hav, hacq2, eq_self_iff_true, not_true,
      Bool.false_eq_true, if_false, if_neg hngold]
  have hfin : buyChampionFromShop dl sizeCfg cfg sp idx
      = ({ (sellChampionInternal dl sizeCfg sp2 sp.nextId).1 with
            player := { (sellChampionInternal dl sizeCfg sp2 sp.nextId).1.player with
              shop := (sellChampionInternal dl sizeCfg sp2 sp.nextId).1.player.shop.set
                idx.toNat none } }, true) := by
    rw [hred]
    simp only [haddB, Bool.false_eq_true, if_false]
  rw [hsell] at hfin
  rw [hfin]
  have hb2 : sp2.player.bench = sp.player.bench := by simp [hsp2, hp1]
  have hs2 : sp2.player.shop = sp.player.shop := by simp [hsp2, hp1]
  have hg2 : sp2.player.gold = sp.player.gold - (cdata.cost : ℤ) := by
    simp [hsp2, hp1]
  refine ⟨rfl, ?_, ?_, ?_, ?_⟩
  · show sp2.player.gold + (cdata.cost : ℤ) = sp.player.gold
    rw [hg2]
    ring
  · show (releaseN dl sizeCfg sp2.pool cdata.champion_id 1).pool idStr = some a
    have hrel1 : releaseN dl sizeCfg sp2.pool cdata.champion_id 1
        = (release dl sizeCfg sp2.pool cdata.champion_id).1 := rfl
    rw [hrel1]
    have hpool2 : sp2.pool = (acquire dl sp.pool idStr).1 := by simp [hsp2]
    rw [hpool2, hidcd]
    exact hrelpool
  · show sp2.player.bench = sp.player.bench
    exact hb2
  · show sp2.player.shop.set idx.toNat none = sp.player.shop.set idx.toNat none
    rw [hs2]

/-- Witness for C10: with a full bench of 2-star Lulus, buying the
1-cost Lulu in shop slot 0 succeeds, leaves gold at 10 and the pool at 5
net of the purchase, keeps the bench, and clears the slot. -/
theorem buy_full_bench_autosell_witness :
    (buyChampionFromShop demoLoader defaultSizeCfg defaultConfig demoBuySP 0).2
      = true ∧
    (buyChampionFromShop demoLoader defaultSizeCfg defaultConfig
        demoBuySP 0).1.player.gold = demoBuySP.player.gold ∧
    (buyChampionFromShop demoLoader defaultSizeCfg defaultConfig
        demoBuySP 0).1.pool.pool "TFT16_Lulu" = some 5 ∧
    (buyChampionFromShop demoLoader defaultSizeCfg defaultConfig
        demoBuySP 0).1.player.bench = demoBuySP.player.bench ∧
    (buyChampionFromShop demoLoader defaultSizeCfg defaultConfig
        demoBuySP 0).1.player.shop
      = demoBuySP.player.shop.set (0 : Int).toNat none :=
  buy_full_bench_autosell demoLoader defaultSizeCfg defaultConfig demoBuySP 0
    "TFT16_Lulu" luluData 5 (by decide) rfl rfl (by decide) rfl (by decide)
    (by decide) (by decide) (by decide) (by decide) (by decide)

/-! ### Theorems: passive hook idempotence (C2) -/

theorem foldl_updStore_pointwise (f : Champion → Champion)
    (hf : ∀ ch, f (f ch) = f ch) :
    ∀ (L : List Nat) (st : Store) (c : Nat),
      (L.foldl (fun st2 c2 => updStore st2 c2 f) st) c
        = if c ∈ L then f (st c) else st c := by
  intro L
  induction L with
  | nil => intro st c; simp
  | cons a L ih =>
    intro st c
    simp only [List.foldl_cons]
    rw [ih]
    by_cases hca : c = a
    · subst hca
      by_cases hcL : c ∈ L
      · simp [updStore, hf, List.mem_cons, hcL]
      · simp [updStore, List.mem_cons, hcL]
    · by_cases hcL : c ∈ L
      · simp [updStore, hca, List.mem_cons, hcL]
      · simp [updStore, hca, List.mem_cons, hcL]

theorem artilleryReset_idem (ch : Champion) :
    artilleryReset (artilleryReset ch) = artilleryReset ch := rfl

theorem artilleryReset_bonus (br : ℤ) (ch : Champion) :
    artilleryReset (artilleryBonus br ch) = artilleryReset ch := rfl

theorem exilesResetShield_idem (ch : Champion) :
    exilesResetShield (exilesResetShield ch) = exilesResetShield ch := rfl

theorem exilesResetShield_shield (pct : ℚ) (ch : Champion) :
    exilesResetShield (exilesShield pct ch) = exilesResetShield ch := rfl

theorem exilesShield_idem (pct : ℚ) (ch : Champion) :
    exilesShield pct (exilesShield pct ch) = exilesShield pct ch := rfl

theorem exilesIsolated_shield (b : BoardSt) (occ : List (Int × Int))
    (pct : ℚ) (ch : Champion) :
    exilesIsolated b occ (exilesShield pct ch) = exilesIsolated b occ ch := rfl

theorem foldl_max_mem (key : Nat → Nat × ℚ) :
    ∀ (xs : List Nat) (a : Nat),
      (xs.foldl (fun best c =>
        if (key best).1 < (key c).1 ∨
           ((key best).1 = (key c).1 ∧ (key best).2 < (key c).2)
        then c else best) a) ∈ a :: xs := by
  intro xs
  induction xs with
  | nil => intro a; simp
  | cons x xs ih =>
    intro a
    simp only [List.foldl_cons]
    by_cases h : (key a).1 < (key x).1 ∨
        ((key a).1 = (key x).1 ∧ (key a).2 < (key x).2)
    · rw [if_pos h]
      exact List.mem_cons_of_mem a (ih x)
    · rw [if_neg h]
      rcases List.mem_cons.mp (ih a) with h1 | h2
      · rw [h1]
        exact List.mem_cons_self _ _
      · exact List.mem_cons_of_mem _ (List.mem_cons_of_mem _ h2)

theorem pyMaxBy_mem (key : Nat → Nat × ℚ) (l : List Nat) (t : Nat)
    (h : pyMaxBy key l = some t) : t ∈ l := by
  cases l with
  | nil => simp [pyMaxBy] at h
  | cons x xs =>
    simp only [pyMaxBy] at h
    injection h with h
    rw [← h]
    exact foldl_max_mem key xs x

theorem strongestRumble_mem (st : Store) (p : PlayerSt) (t : Nat)
    (h : strongestRumble st p = some t) :
    (t ∈ getAllChampionsB p.board ∨ t ∈ p.bench.filterMap id) ∧
    (st t).data.name = "Rumble" := by
  simp only [strongestRumble] at h
  cases hbr : pyMaxBy (fun c => ((st c).stars, (st c).current_hp))
      ((getAllChampionsB p.board).filter
        (fun c => (st c).data.name = "Rumble")) with
  | some u =>
    rw [hbr] at h
    have hu : u = t := by injection h
    subst hu
    have hmem := pyMaxBy_mem _ _ _ hbr
    have := List.mem_filter.mp hmem
    exact ⟨Or.inl this.1, of_decide_eq_true this.2⟩
  | none =>
    rw [hbr] at h
    have hmem := pyMaxBy_mem _ _ _ h
    have := List.mem_filter.mp hmem
    exact ⟨Or.inr this.1, of_decide_eq_true this.2⟩

theorem artilleryPassive_fst (effects : String → Option ℚ) (sp : SP) :
    (artilleryPassive effects sp).1
      = { sp with store := artStore effects sp.player sp.store } := by
  simp only [artilleryPassive, artStore, getAllChampionsP]
  cases ht : strongestRumble
      (((getAllChampionsB sp.player.board ++ sp.player.bench.filterMap id).filter
          (fun c => (sp.store c).data.name = "Rumble")).foldl
        (fun st2 c2 => updStore st2 c2 artilleryReset) sp.store) sp.player with
  | none => simp [ht]
  | some t => simp [ht]

theorem exilesPassive_fst (effects : String → Option ℚ) (sp : SP) :
    (exilesPassive effects sp).1
      = { sp with store := exStore effects sp.player sp.store } := rfl

theorem artilleryBonus_data (br : ℤ) (ch : Champion) :
    (artilleryBonus br ch).data = ch.data := rfl

theorem artStore_eq (effects : String → Option ℚ) (p : PlayerSt) (st : Store) :
    artStore effects p st
      = (match strongestRumble
            (((getAllChampionsB p.board ++ p.bench.filterMap id).filter
                (fun c => (st c).data.name = "Rumble")).foldl
              (fun st2 c2 => updStore st2 c2 artilleryReset) st) p with
         | none =>
             ((getAllChampionsB p.board ++ p.bench.filterMap id).filter
                 (fun c => (st c).data.name = "Rumble")).foldl
               (fun st2 c2 => updStore st2 c2 artilleryReset) st
         | some t =>
             updStore
               (((getAllChampionsB p.board ++ p.bench.filterMap id).filter
                   (fun c => (st c).data.name = "Rumble")).foldl
                 (fun st2 c2 => updStore st2 c2 artilleryReset) st)
               t (artilleryBonus (pyIntQ ((effects "MaxRange").getD 0)))) := rfl

theorem artStore_idem (effects : String → Option ℚ) (p : PlayerSt)
    (st : Store) :
    artStore effects p (artStore effects p st) = artStore effects p st := by
  set br := pyIntQ ((effects "MaxRange").getD 0) with hbr
  set L := (getAllChampionsB p.board ++ p.bench.filterMap id).filter
      (fun c => (st c).data.name = "Rumble") with hLdef
  set st1 := L.foldl (fun st2 c2 => updStore st2 c2 artilleryReset) st with hst1
  have hpoint : ∀ c, st1 c = if c ∈ L then artilleryReset (st c) else st c := by
    intro c
    rw [hst1]
    exact foldl_updStore_pointwise artilleryReset (fun ch => rfl) L st c
  have hdata1 : ∀ c, (st1 c).data = (st c).data := by
    intro c
    rw [hpoint c]
    by_cases hc : c ∈ L
    · simp [hc, artilleryReset]
    · simp [hc]
  have hA : artStore effects p st
      = (match strongestRumble st1 p with
         | none => st1
         | some t => updStore st1 t (artilleryBonus br)) := artStore_eq effects p st
  cases ht : strongestRumble st1 p with
  | none =>
    have hAs : artStore effects p st = st1 := by rw [hA, ht]
    rw [hAs]
    have hL2 : (getAllChampionsB p.board ++ p.bench.filterMap id).filter
        (fun c => (st1 c).data.name = "Rumble") = L := by
      rw [hLdef]
      apply List.filter_congr
      intro c _
      rw [hdata1 c]
    have hfold2 : L.foldl (fun st2 c2 => updStore st2 c2 artilleryReset) st1
        = st1 := by
      funext c
      rw [foldl_updStore_pointwise artilleryReset (fun ch => rfl) L st1 c]
      by_cases hc : c ∈ L
      · rw [if_pos hc, hpoint c, if_pos hc, artilleryReset_idem]
      · rw [if_neg hc]
    rw [artStore_eq effects p st1, hL2, hfold2, ht]
  | some t =>
    have hAs : artStore effects p st = updStore st1 t (artilleryBonus br) := by
      rw [hA, ht]
    have hmem := strongestRumble_mem st1 p t ht
    have htL : t ∈ L := by
      rw [hLdef]
      apply List.mem_filter.mpr
      constructor
      · rcases hmem.1 with h1 | h1
        · exact List.mem_append.mpr (Or.inl h1)
        · exact List.mem_append.mpr (Or.inr h1)
      · have := hmem.2
        rw [hdata1 t] at this
        exact decide_eq_true this
    rw [hAs]
    set stF := updStore st1 t (artilleryBonus br) with hstF
    have hdataF : ∀ c, (stF c).data = (st c).data := by
      intro c
      by_cases hc : c = t <;>
        simp [hstF, updStore, hc, artilleryBonus_data, hdata1]
    have hL2 : (getAllChampionsB p.board ++ p.bench.filterMap id).filter
        (fun c => (stF c).data.name = "Rumble") = L := by
      rw [hLdef]
      apply List.filter_congr
      intro c _
      rw [hdataF c]
    have hFc : ∀ c, stF c = if c = t then artilleryBonus br (st1 c) else st1 c := by
      intro c
      rw [hstF]
      rfl
    have hfold2 : L.foldl (fun st2 c2 => updStore st2 c2 artilleryReset) stF
        = st1 := by
      funext c
      rw [foldl_updStore_pointwise artilleryReset (fun ch => rfl) L stF c]
      by_cases hc : c ∈ L
      · rw [if_pos hc, hFc c]
        by_cases hct : c = t
        · rw [if_pos hct, artilleryReset_bonus, hpoint c, if_pos hc,
            artilleryReset_idem]
        · rw [if_neg hct, hpoint c, if_pos hc, artilleryReset_idem]
      · rw [if_neg hc, hFc c]
        have hct : ¬ (c = t) := by
          intro hcontra
          rw [hcontra] at hc
          exact hc htL
        rw [if_neg hct]
    rw [artStore_eq effects p stF, hL2, hfold2, ht]

theorem exilesStep_fst (b : BoardSt) (occ : List (Int × Int)) (pct : ℚ)
    (acc : Store × List String) (a : Nat) :
    (exilesStep b occ pct acc a).1
      = if exilesIsolated b occ (acc.1 a) = true
        then updStore acc.1 a (exilesShield pct) else acc.1 := by
  cases hpos : (acc.1 a).position with
  | none =>
    have hred : exilesStep b occ pct acc a = acc := by
      unfold exilesStep
      rw [hpos]
    have hiso : exilesIsolated b occ (acc.1 a) = false := by
      unfold exilesIsolated
      rw [hpos]
    rw [hred, hiso]
    simp
  | some pos =>
    have hred : exilesStep b occ pct acc a
        = if ((hexNeighbors b pos.1 pos.2).any fun q => occ.contains q) = true
          then acc
          else (updStore acc.1 a (exilesShield pct),
                acc.2 ++ [(acc.1 a).data.name]) := by
      unfold exilesStep
      rw [hpos]
    have hiso : exilesIsolated b occ (acc.1 a)
        = ! ((hexNeighbors b pos.1 pos.2).any fun q => occ.contains q) := by
      unfold exilesIsolated
      rw [hpos]
    rw [hred, hiso]
    cases hany : (hexNeighbors b pos.1 pos.2).any (fun q => occ.contains q) with
    | true => simp
    | false => simp

theorem exilesStep_snd_keeps_fst (b : BoardSt) (occ : List (Int × Int))
    (pct : ℚ) (acc acc2 : Store × List String) (a : Nat)
    (h : acc.1 = acc2.1) :
    (exilesStep b occ pct acc a).1 = (exilesStep b occ pct acc2 a).1 := by
  rw [exilesStep_fst, exilesStep_fst, h]

theorem foldl_exilesStep_fst (b : BoardSt) (occ : List (Int × Int)) (pct : ℚ) :
    ∀ (L : List Nat) (acc : Store × List String) (c : Nat),
      ((L.foldl (exilesStep b occ pct) acc).1) c
        = if c ∈ L ∧ exilesIsolated b occ (acc.1 c) = true
          then exilesShield pct (acc.1 c) else acc.1 c := by
  intro L
  induction L with
  | nil => intro acc c; simp
  | cons a L ih =>
    intro acc c
    simp only [List.foldl_cons]
    rw [ih]
    rw [exilesStep_fst]
    by_cases hca : c = a
    · subst hca
      by_cases hiso : exilesIsolated b occ (acc.1 c) = true
      · rw [if_pos hiso]
        by_cases hcL : c ∈ L
        · rw [if_pos (by
            constructor
            · exact hcL
            · simpa [updStore, exilesIsolated_shield] using hiso)]
          simp [updStore, exilesShield_idem, List.mem_cons, hcL, hiso]
        · rw [if_neg (by
            intro hcon
            exact hcL hcon.1)]
          simp [updStore, List.mem_cons, hiso]
      · rw [if_neg hiso]
        by_cases hcL : c ∈ L
        · rw [if_neg (by
            intro hcon
            exact hiso hcon.2)]
          simp [List.mem_cons, hiso, hcL]
        · rw [if_neg (by
            intro hcon
            exact hiso hcon.2)]
          simp [List.mem_cons, hiso, hcL]
    · have hupd : ∀ st : Store,
          (if exilesIsolated b occ (acc.1 a) = true
           then updStore acc.1 a (exilesShield pct) else acc.1) c = acc.1 c := by
        intro _
        by_cases hiso : exilesIsolated b occ (acc.1 a) = true
        · simp [hiso, updStore, hca]
        · simp [hiso]
      rw [hupd acc.1]
      by_cases hcL : c ∈ L
      · simp [List.mem_cons, hca, hcL]
      · simp [List.mem_cons, hca, hcL]

theorem exilesResetShield_pos (ch : Champion) :
    (exilesResetShield ch).position = ch.position := rfl

theorem exilesShield_pos (pct : ℚ) (ch : Champion) :
    (exilesShield pct ch).position = ch.position := rfl

theorem exStore_eq (effects : String → Option ℚ) (p : PlayerSt) (st : Store) :
    exStore effects p st
      = ((getAllChampionsB p.board).foldl
          (exilesStep p.board
            ((getAllChampionsB p.board).filterMap (fun c => (st c).position))
            ((effects "ShieldPercent").getD (3 / 10)))
          ((getAllChampionsB p.board).foldl
            (fun st2 c2 => updStore st2 c2 exilesResetShield) st, [])).1 := rfl

theorem exStore_idem (effects : String → Option ℚ) (p : PlayerSt)
    (st : Store) :
    exStore effects p (exStore effects p st) = exStore effects p st := by
  set pct := (effects "ShieldPercent").getD (3 / 10) with hpct
  set B := getAllChampionsB p.board with hB
  set occ := B.filterMap (fun c => (st c).position) with hocc
  set st1 := B.foldl (fun st2 c2 => updStore st2 c2 exilesResetShield) st
    with hst1
  have hpoint1 : ∀ c, st1 c
      = if c ∈ B then exilesResetShield (st c) else st c := by
    intro c
    rw [hst1]
    exact foldl_updStore_pointwise exilesResetShield (fun ch => rfl) B st c
  set stB := (B.foldl (exilesStep p.board occ pct) (st1, [])).1 with hstB
  have hpointB : ∀ c, stB c
      = if c ∈ B ∧ exilesIsolated p.board occ (st1 c) = true
        then exilesShield pct (st1 c) else st1 c := by
    intro c
    rw [hstB]
    exact foldl_exilesStep_fst p.board occ pct B (st1, []) c
  have hEx : exStore effects p st = stB := exStore_eq effects p st
  have hposB : ∀ c, (stB c).position = (st c).position := by
    intro c
    rw [hpointB c]
    by_cases h1 : c ∈ B ∧ exilesIsolated p.board occ (st1 c) = true
    · rw [if_pos h1, exilesShield_pos, hpoint1 c]
      by_cases hc : c ∈ B
      · rw [if_pos hc, exilesResetShield_pos]
      · rw [if_neg hc]
    · rw [if_neg h1, hpoint1 c]
      by_cases hc : c ∈ B
      · rw [if_pos hc, exilesResetShield_pos]
      · rw [if_neg hc]
  rw [hEx]
  have hocc2 : B.filterMap (fun c => (stB c).position) = occ := by
    rw [hocc]
    apply List.filterMap_congr
    intro c _
    rw [hposB c]
  have hfold2 : B.foldl (fun st2 c2 => updStore st2 c2 exilesResetShield) stB
      = st1 := by
    funext c
    rw [foldl_updStore_pointwise exilesResetShield (fun ch => rfl) B stB c]
    by_cases hc : c ∈ B
    · rw [if_pos hc, hpointB c]
      by_cases h1 : c ∈ B ∧ exilesIsolated p.board occ (st1 c) = true
      · rw [if_pos h1, exilesResetShield_shield, hpoint1 c, if_pos hc,
          exilesResetShield_idem]
      · rw [if_neg h1, hpoint1 c, if_pos hc, exilesResetShield_idem]
    · rw [if_neg hc, hpointB c]
      rw [if_neg (by
        intro hcon
        exact hc hcon.1)]
  rw [exStore_eq effects p stB, hocc2, hfold2]

/-- C2. Passive idempotence: for every player state and every augment,
firing the augment's passive hook twice in a row with no other state
change in between produces exactly the same state — in particular every
owned champion carries the same final stats and the same transient
per-augment attributes — as firing it once; the reset-then-reapply
discipline of the passive hooks makes the second application a no-op. -/
theorem passive_hook_idempotent (dl : DataLoader) (cfg : Config) (sp : SP)
    (aug : Augment) :
    (applyAugmentHook dl cfg (applyAugmentHook dl cfg sp aug "passive").1
        aug "passive").1
      = (applyAugmentHook dl cfg sp aug "passive").1 := by
  by_cases h1 : aug.augment_id = "TFT16_Augment_RumbleCarry"
  · have hdisp : ∀ s : SP, applyAugmentHook dl cfg s aug "passive"
        = artilleryPassive aug.effects s := by
      intro s
      unfold applyAugmentHook augmentRegistry
      rw [h1]
      simp +decide [artilleryPassiveHook]
    rw [hdisp, hdisp, artilleryPassive_fst aug.effects sp,
      artilleryPassive_fst]
    simp [artStore_idem]
  · by_cases h2 : aug.augment_id = "TFT16_Augment_Exiles2"
    · have hdisp : ∀ s : SP, applyAugmentHook dl cfg s aug "passive"
          = exilesPassive aug.effects s := by
        intro s
        unfold applyAugmentHook augmentRegistry
        rw [h2]
        simp +decide [exilesPassiveHook]
      rw [hdisp, hdisp, exilesPassive_fst aug.effects sp, exilesPassive_fst]
      simp [exStore_idem]
    · have hdisp : ∀ s : SP, applyAugmentHook dl cfg s aug "passive"
          = (s, { success := true }) := by
        intro s
        unfold applyAugmentHook augmentRegistry
        by_cases h3 : aug.augment_id = "TFT16_Augment_Epoch"
        · rw [h3]
          simp +decide
        · by_cases h4 : aug.augment_id = "TFT16_Augment_EpochPlus"
          · rw [h4]
            simp +decide
          · rw [if_neg h1, if_neg h2, if_neg h3, if_neg h4]
      rw [hdisp, hdisp]

/-! ### Theorems: neutral augment hook dispatch (C9) -/

/-- C9. For every player state, every hook event name, and every augment
whose id has no registry entry or whose entry lacks a hook for that
event, apply_augment_hook returns a neutral AugmentResult with
success True and every grant/gold/XP/reroll/affected field empty or
zero, and leaves the state unchanged.  The embedding is a total
function, reflecting that the source path raises no exception. -/
theorem augment_hook_neutral (dl : DataLoader) (cfg : Config) (sp : SP)
    (aug : Augment) (event : String)
    (h : ((augmentRegistry aug.augment_id).bind
        (fun handler => handler event)) = none) :
    applyAugmentHook dl cfg sp aug event
      = (sp, { success := true, grants := [], gold_delta := 0,
               affected_champions := [], xp_delta := 0,
               rerolls_granted := 0 }) := by
  unfold applyAugmentHook
  cases hreg : augmentRegistry aug.augment_id with
  | none => rfl
  | some handler =>
    rw [hreg] at h
    simp only [Option.some_bind] at h
    simp only [h]

/-- Witness for C9: an augment id absent from the registry yields the
neutral result from a passive hook call and leaves the state intact. -/
theorem augment_hook_neutral_witness :
    ((augmentRegistry "TFT16_Augment_DoesNotExist").bind
        (fun handler => handler "passive")) = none ∧
    applyAugmentHook demoLoader defaultConfig demoSellSP
        { augment_id := "TFT16_Augment_DoesNotExist", name := "Missing",
          effects := fun _ => none } "passive"
      = (demoSellSP, { success := true, grants := [], gold_delta := 0,
                       affected_champions := [], xp_delta := 0,
                       rerolls_granted := 0 }) :=
  ⟨by rfl,
   augment_hook_neutral demoLoader defaultConfig demoSellSP
     { augment_id := "TFT16_Augment_DoesNotExist", name := "Missing",
       effects := fun _ => none } "passive" (by rfl)⟩

/-! ### Theorems: board cell-unit invariant (C8) -/

/-- The bidirectional cell-unit invariant: every occupied cell's stored
champion records that cell as its position, and no champion object is
referenced by two different cells. -/
def BoardInv (s : Store × BoardSt) : Prop :=
  (∀ p cid, s.2.grid p = some cid → (s.1 cid).position = some p) ∧
  (∀ p q cid, s.2.grid p = some cid → s.2.grid q = some cid → p = q)

theorem pyEqChampion_refl (c : Champion) : pyEqChampion c c = true := by
  simp [pyEqChampion]

theorem clearStalePrev_sub (st : Store) (b : BoardSt) (cid : Nat)
    (p : Int × Int) (e : Nat)
    (h : (clearStalePrev st b cid).grid p = some e) : b.grid p = some e := by
  unfold clearStalePrev at h
  cases hpos : (st cid).position with
  | none => simp only [hpos] at h; exact h
  | some old =>
    simp only [hpos] at h
    cases hold : b.grid old with
    | none => simp only [hold] at h; exact h
    | some d =>
      simp only [hold] at h
      by_cases heq : pyEqChampion (st d) (st cid) = true
      · rw [if_pos heq] at h
        simp only at h
        by_cases hp : p = old
        · subst hp; simp at h
        · simpa [hp] using h
      · rw [if_neg heq] at h; exact h

theorem clearStalePrev_not_cid (st : Store) (b : BoardSt) (cid : Nat)
    (hinv : BoardInv (st, b)) (p : Int × Int) :
    ¬ ((clearStalePrev st b cid).grid p = some cid) := by
  intro hcontra
  have hb : b.grid p = some cid := clearStalePrev_sub st b cid p cid hcontra
  have hpos : (st cid).position = some p := hinv.1 p cid hb
  simp only [clearStalePrev, hpos, hb, pyEqChampion_refl, if_true] at hcontra
  simp at hcontra

theorem place_success_inv (st : Store) (b : BoardSt) (cid : Nat) (r c : Int)
    (hinv : BoardInv (st, b)) :
    BoardInv
      (updStore st cid (fun ch => { ch with position := some (r, c) }),
       { clearStalePrev st b cid with grid := fun p =>
           if p = (r, c) then (some cid)
           else (clearStalePrev st b cid).grid p }) := by
  have hnotcid := clearStalePrev_not_cid st b cid hinv
  constructor
  · intro p e hp
    simp only at hp
    by_cases hpc : p = (r, c)
    · subst hpc
      rw [if_pos rfl] at hp
      have he : e = cid := by injection hp with h; exact h.symm
      subst he
      simp [updStore]
    · rw [if_neg hpc] at hp
      have hbe := clearStalePrev_sub st b cid p e hp
      have hecid : ¬ (e = cid) := by
        intro h; subst h; exact hnotcid p hp
      have := hinv.1 p e hbe
      simpa [updStore, hecid] using this
  · intro p q e hp hq
    simp only at hp hq
    by_cases hpc : p = (r, c) <;> by_cases hqc : q = (r, c)
    · rw [hpc, hqc]
    · rw [if_pos hpc] at hp
      rw [if_neg hqc] at hq
      have he : e = cid := by injection hp with h; exact h.symm
      subst he
      exact absurd hq (hnotcid q)
    · rw [if_neg hpc] at hp
      rw [if_pos hqc] at hq
      have he : e = cid := by injection hq with h; exact h.symm
      subst he
      exact absurd hp (hnotcid p)
    · rw [if_neg hpc] at hp
      rw [if_neg hqc] at hq
      exact hinv.2 p q e (clearStalePrev_sub st b cid p e hp)
        (clearStalePrev_sub st b cid q e hq)

theorem boardIsEmpty_none (b : BoardSt) (r c : Int)
    (h : boardIsEmpty b r c = true) : b.grid (r, c) = none := by
  simp only [boardIsEmpty, Bool.and_eq_true, Option.isNone_iff_eq_none] at h
  exact h.2

theorem boardPlace_inv (st : Store) (b : BoardSt) (cid : Nat) (r c : Int)
    (hinv : BoardInv (st, b)) :
    BoardInv ((boardPlace st b cid r c).1, (boardPlace st b cid r c).2.1) := by
  by_cases hv : isValidPos b r c = true
  · by_cases he : boardIsEmpty b r c = true
    · have hred : boardPlace st b cid r c
        = (updStore st cid (fun ch => { ch with position := some (r, c) }),
           { clearStalePrev st b cid with grid := fun p =>
               if p = (r, c) then (some cid)
               else (clearStalePrev st b cid).grid p }, true) := by
        simp [boardPlace, hv, he]
      rw [hred]
      exact place_success_inv st b cid r c hinv
    · have hred : boardPlace st b cid r c = (st, b, false) := by
        simp [boardPlace, hv, he]
      rw [hred]
      exact hinv
  · have hred : boardPlace st b cid r c = (st, b, false) := by
      simp [boardPlace, hv]
    rw [hred]
    exact hinv

theorem boardRemove_inv (st : Store) (b : BoardSt) (r c : Int)
    (hinv : BoardInv (st, b)) :
    BoardInv ((boardRemove st b r c).1, (boardRemove st b r c).2.1) := by
  by_cases hv : isValidPos b r c = true
  · cases hg : b.grid (r, c) with
    | none =>
      have hred : boardRemove st b r c = (st, b, none) := by
        simp [boardRemove, hv, hg]
      rw [hred]
      exact hinv
    | some cid =>
      have hred : boardRemove st b r c
        = (updStore st cid (fun ch => { ch with position := none }),
           { b with grid := fun p => if p = (r, c) then none else b.grid p },
           some cid) := by
        simp [boardRemove, hv, hg]
      rw [hred]
      constructor
      · intro p e hp
        simp only at hp
        by_cases hpc : p = (r, c)
        · rw [if_pos hpc] at hp; exact absurd hp (by simp)
        · rw [if_neg hpc] at hp
          have hecid : ¬ (e = cid) := by
            intro h
            subst h
            exact hpc (hinv.2 p (r, c) e hp hg)
          have := hinv.1 p e hp
          simpa [updStore, hecid] using this
      · intro p q e hp hq
        simp only at hp hq
        by_cases hpc : p = (r, c)
        · rw [if_pos hpc] at hp; exact absurd hp (by simp)
        · by_cases hqc : q = (r, c)
          · rw [if_pos hqc] at hq; exact absurd hq (by simp)
          · rw [if_neg hpc] at hp
            rw [if_neg hqc] at hq
            exact hinv.2 p q e hp hq
  · have hred : boardRemove st b r c = (st, b, none) := by
      simp [boardRemove, hv]
    rw [hred]
    exact hinv

theorem boardGet_some (b : BoardSt) (r c : Int) (cid : Nat)
    (h : boardGet b r c = some cid) : b.grid (r, c) = some cid := by
  unfold boardGet at h
  by_cases hv : isValidPos b r c = true
  · rwa [if_pos hv] at h
  · rw [if_neg hv] at h; exact absurd h (by simp)

theorem boardMove_inv (st : Store) (b : BoardSt) (fr fc tr tc : Int)
    (hinv : BoardInv (st, b)) :
    BoardInv ((boardMove st b fr fc tr tc).1, (boardMove st b fr fc tr tc).2.1) := by
  cases hget : boardGet b fr fc with
  | none =>
    have hred : boardMove st b fr fc tr tc = (st, b, false) := by
      simp [boardMove, hget]
    rw [hred]
    exact hinv
  | some cid =>
    have hsrc : b.grid (fr, fc) = some cid := boardGet_some b fr fc cid hget
    by_cases hv : isValidPos b tr tc = true
    · by_cases he : boardIsEmpty b tr tc = true
      · have hdst : b.grid (tr, tc) = none := boardIsEmpty_none b tr tc he
        have hred : boardMove st b fr fc tr tc
          = (updStore st cid (fun ch => { ch with position := some (tr, tc) }),
             { b with grid := fun p =>
                 if p = (tr, tc) then (some cid)
                 else if p = (fr, fc) then none
                 else b.grid p },
             true) := by
          simp [boardMove, hget, hv, he]
        rw [hred]
        constructor
        · intro p e hp
          simp only at hp
          by_cases hpt : p = (tr, tc)
          · rw [if_pos hpt] at hp
            have he2 : e = cid := by injection hp with h; exact h.symm
            subst he2
            subst hpt
            simp [updStore]
          · rw [if_neg hpt] at hp
            by_cases hpf : p = (fr, fc)
            · rw [if_pos hpf] at hp; exact absurd hp (by simp)
            · rw [if_neg hpf] at hp
              have hecid : ¬ (e = cid) := by
                intro h
                subst h
                exact hpf (hinv.2 p (fr, fc) e hp hsrc)
              have := hinv.1 p e hp
              simpa [updStore, hecid] using this
        · intro p q e hp hq
          simp only at hp hq
          by_cases hpt : p = (tr, tc) <;> by_cases hqt : q = (tr, tc)
          · rw [hpt, hqt]
          · rw [if_pos hpt] at hp
            have he2 : e = cid := by injection hp with h; exact h.symm
            subst he2
            rw [if_neg hqt] at hq
            by_cases hqf : q = (fr, fc)
            · rw [if_pos hqf] at hq; exact absurd hq (by simp)
            · rw [if_neg hqf] at hq
              exact absurd (hinv.2 q (fr, fc) _ hq hsrc) hqf
          · rw [if_pos hqt] at hq
            have he2 : e = cid := by injection hq with h; exact h.symm
            subst he2
            rw [if_neg hpt] at hp
            by_cases hpf : p = (fr, fc)
            · rw [if_pos hpf] at hp; exact absurd hp (by simp)
            · rw [if_neg hpf] at hp
              exact absurd (hinv.2 p (fr, fc) _ hp hsrc) hpf
          · rw [if_neg hpt] at hp
            rw [if_neg hqt] at hq
            by_cases hpf : p = (fr, fc)
            · rw [if_pos hpf] at hp; exact absurd hp (by simp)
            · by_cases hqf : q = (fr, fc)
              · rw [if_pos hqf] at hq; exact absurd hq (by simp)
              · rw [if_neg hpf] at hp
                rw [if_neg hqf] at hq
                exact hinv.2 p q e hp hq
      · have hred : boardMove st b fr fc tr tc = (st, b, false) := by
          simp [boardMove, hget, hv, he]
        rw [hred]
        exact hinv
    · have hred : boardMove st b fr fc tr tc = (st, b, false) := by
        simp [boardMove, hget, hv]
      rw [hred]
      exact hinv

theorem boardSwap_inv (st : Store) (b : BoardSt) (r1 c1 r2 c2 : Int)
    (hinv : BoardInv (st, b)) :
    BoardInv ((boardSwap st b r1 c1 r2 c2).1, (boardSwap st b r1 c1 r2 c2).2.1) := by
  by_cases hv1 : isValidPos b r1 c1 = true
  · by_cases hv2 : isValidPos b r2 c2 = true
    · have hred : boardSwap st b r1 c1 r2 c2
        = (match b.grid (r2, c2) with
           | some a =>
             updStore
               (match b.grid (r1, c1) with
                | some a1 =>
                    updStore st a1 (fun ch => { ch with position := some (r2, c2) })
                | none => st)
               a (fun ch => { ch with position := some (r1, c1) })
           | none =>
             match b.grid (r1, c1) with
             | some a1 =>
                 updStore st a1 (fun ch => { ch with position := some (r2, c2) })
             | none => st,
           { b with grid := fun p =>
               if p = (r2, c2) then b.grid (r1, c1)
               else if p = (r1, c1) then b.grid (r2, c2)
               else b.grid p },
           true) := by
        simp [boardSwap, hv1, hv2]
      rw [hred]
      set sigma : Int × Int → Int × Int := fun p =>
        if p = (r2, c2) then (r1, c1)
        else if p = (r1, c1) then (r2, c2)
        else p with hsigma
      have hgrid : ∀ p,
          (if p = (r2, c2) then b.grid (r1, c1)
           else if p = (r1, c1) then b.grid (r2, c2)
           else b.grid p) = b.grid (sigma p) := by
        intro p
        by_cases h2 : p = (r2, c2)
        · subst h2; simp [hsigma]
        · by_cases h1 : p = (r1, c1)
          · subst h1; simp [hsigma, h2]
          · simp [hsigma, h1, h2]
      have hsigma_inj : ∀ p q, sigma p = sigma q → p = q := by
        intro p q hpq
        have hinvol : ∀ x, sigma (sigma x) = x := by
          intro x
          by_cases h2 : x = (r2, c2)
          · subst h2
            by_cases h12 : ((r1 : Int), (c1 : Int)) = ((r2 : Int), (c2 : Int))
            · simp [hsigma, h12]
            · simp [hsigma, h12]
          · by_cases h1 : x = (r1, c1)
            · subst h1
              simp [hsigma, h2]
            · simp [hsigma, h1, h2]
        have := congrArg sigma hpq
        rwa [hinvol, hinvol] at this
      constructor
      · intro p e hp
        simp only at hp
        rw [hgrid p] at hp
        by_cases h2 : p = (r2, c2)
        · subst h2
          have hp1 : b.grid (r1, c1) = some e := by
            simpa [hsigma] using hp
          cases hg2 : b.grid (r2, c2) with
          | none =>
            simp only [hg2, hp1]
            simp [updStore]
          | some a2 =>
            simp only [hg2, hp1]
            by_cases hae : e = a2
            · have hg2e : b.grid (r2, c2) = some e := by rw [hae]; exact hg2
              have h12 : ((r1 : Int), (c1 : Int)) = ((r2 : Int), (c2 : Int)) :=
                hinv.2 (r1, c1) (r2, c2) e hp1 hg2e
              simp [updStore, ← hae, ← h12]
            · simp [updStore, hae]
        · by_cases h1 : p = (r1, c1)
          · subst h1
            have hp2 : b.grid (r2, c2) = some e := by
              simpa [hsigma, h2] using hp
            simp only [hp2]
            simp [updStore]
          · have hpp : b.grid p = some e := by
              simpa [hsigma, h1, h2] using hp
            cases hg2 : b.grid (r2, c2) with
            | none =>
              simp only [hg2]
              cases hg1 : b.grid (r1, c1) with
              | none => exact hinv.1 p e hpp
              | some a1 =>
                have hne1 : ¬ (e = a1) := by
                  intro hc
                  exact h1 (hinv.2 p (r1, c1) e hpp (by rw [hg1, hc]))
                simp only [updStore]
                simp [hne1]
                exact hinv.1 p e hpp
            | some a2 =>
              have hne2 : ¬ (e = a2) := by
                intro hc
                exact h2 (hinv.2 p (r2, c2) e hpp (by rw [hg2, hc]))
              cases hg1 : b.grid (r1, c1) with
              | none =>
                simp only [hg2, hg1]
                simp only [updStore]
                simp [hne2]
                exact hinv.1 p e hpp
              | some a1 =>
                have hne1 : ¬ (e = a1) := by
                  intro hc
                  exact h1 (hinv.2 p (r1, c1) e hpp (by rw [hg1, hc]))
                simp only [hg2, hg1]
                simp only [updStore]
                simp [hne1, hne2]
                exact hinv.1 p e hpp
      · intro p q e hp hq
        simp only at hp hq
        rw [hgrid p] at hp
        rw [hgrid q] at hq
        exact hsigma_inj p q (hinv.2 (sigma p) (sigma q) e hp hq)
    · have hred : boardSwap st b r1 c1 r2 c2 = (st, b, false) := by
        simp [boardSwap, hv1, hv2]
      rw [hred]
      exact hinv
  · have hred : boardSwap st b r1 c1 r2 c2 = (st, b, false) := by
      simp [boardSwap, hv1]
    rw [hred]
    exact hinv

theorem applyBoardOp_inv (s : Store × BoardSt) (op : BoardOp)
    (hinv : BoardInv s) : BoardInv (applyBoardOp s op) := by
  cases op with
  | place cid r c => exact boardPlace_inv s.1 s.2 cid r c hinv
  | remove r c => exact boardRemove_inv s.1 s.2 r c hinv
  | move fr fc tr tc => exact boardMove_inv s.1 s.2 fr fc tr tc hinv
  | swap r1 c1 r2 c2 => exact boardSwap_inv s.1 s.2 r1 c1 r2 c2 hinv

/-- C8. Board invariant: after any finite sequence of place, remove,
move and swap operations starting from an empty board (with any store of
champion objects handed in from outside), every occupied cell's stored
champion records that cell's coordinates as its position, and no
champion object is referenced by two different cells. -/
theorem board_invariant (ops : List BoardOp) (st0 : Store) :
    BoardInv (runBoard ops (st0, initBoard 4 7)) := by
  have hstep : ∀ (l : List BoardOp) (s : Store × BoardSt),
      BoardInv s → BoardInv (l.foldl applyBoardOp s) := by
    intro l
    induction l with
    | nil => intro s hs; exact hs
    | cons op rest ih =>
      intro s hs
      exact ih _ (applyBoardOp_inv s op hs)
  apply hstep
  constructor
  · intro p cid hp
    exact absurd hp (by simp [initBoard])
  · intro p q cid hp _
    exact absurd hp (by simp [initBoard])

/-! ### C3: carousel rounds -/

theorem chooseComponent_mem (o : Oracle) (n : Nat) :
    chooseComponent o n ∈ ITEM_COMPONENTS := by
  have h : o.pickComponent n % ITEM_COMPONENTS.length < ITEM_COMPONENTS.length :=
    Nat.mod_lt _ (by decide)
  unfold chooseComponent
  rw [List.getD_eq_getElem _ _ h]
  exact List.getElem_mem h

theorem carouselMap_length (o : Oracle) :
    ∀ (ps : List PlayerSt) (n : Nat),
      (carouselMap o n ps).length = ps.length := by
  intro ps
  induction ps with
  | nil => intro n; rfl
  | cons p ps ih =>
    intro n
    by_cases h : p.is_alive
    · simp [carouselMap, h, ih]
    · simp [carouselMap, h, ih]

theorem carousel_foldl_eq (o : Oracle) :
    ∀ (ps : List PlayerSt) (acc : List PlayerSt) (n : Nat),
      ps.foldl
        (fun (acc : List PlayerSt × Nat) p =>
          if p.is_alive then
            (acc.1 ++ [grantItemComponent p (chooseComponent o acc.2)],
              acc.2 + 1)
          else (acc.1 ++ [p], acc.2))
        (acc, n)
      = (acc ++ carouselMap o n ps,
          n + (ps.filter (fun p => p.is_alive)).length) := by
  intro ps
  induction ps with
  | nil => intro acc n; simp [carouselMap]
  | cons p ps ih =>
    intro acc n
    by_cases h : p.is_alive
    · rw [List.foldl_cons]
      simp only [h, if_true]
      rw [ih]
      simp [carouselMap, h, List.filter_cons]
      omega
    · rw [List.foldl_cons]
      simp only [h, if_false]
      rw [ih]
      simp [carouselMap, h, List.filter_cons]

theorem carouselMap_getD (o : Oracle) :
    ∀ (ps : List PlayerSt) (n i : Nat), i < ps.length →
      ((ps.getD i dummyPlayer).is_alive = true →
        ∃ comp ∈ ITEM_COMPONENTS,
          (carouselMap o n ps).getD i dummyPlayer
            = grantItemComponent (ps.getD i dummyPlayer) comp) ∧
      ((ps.getD i dummyPlayer).is_alive = false →
        (carouselMap o n ps).getD i dummyPlayer = ps.getD i dummyPlayer) := by
  intro ps
  induction ps with
  | nil => intro n i hi; exact absurd hi (by simp)
  | cons p ps ih =>
    intro n i hi
    cases i with
    | zero =>
      by_cases h : p.is_alive
      · constructor
        · intro _
          exact ⟨chooseComponent o n, chooseComponent_mem o n,
            by simp [carouselMap, h]⟩
        · intro hdead
          simp [h] at hdead
      · constructor
        · intro halive
          simp [h] at halive
        · intro _
          simp [carouselMap, h]
    | succ j =>
      have hj : j < ps.length := by simpa using hi
      by_cases h : p.is_alive
      · simpa [carouselMap, h] using ih (n + 1) j hj
      · simpa [carouselMap, h] using ih n j hj

/-- C3.  At a configured carousel round, run_combat_phase returns the
empty result map (no player-vs-player pairing), and each alive player
is granted exactly one item component drawn from ITEM_COMPONENTS while
eliminated players are left untouched. -/
theorem carousel_round_spec (o : Oracle) (es : EngineSt)
    (h : es.round.current_round ∈ CAROUSEL_ROUNDS) :
    (runCombatPhase o es).2 = [] ∧
    (runCombatPhase o es).1.players.length = es.players.length ∧
    ∀ i, i < es.players.length →
      (((es.players.getD i dummyPlayer).is_alive = true →
        ∃ comp ∈ ITEM_COMPONENTS,
          (runCombatPhase o es).1.players.getD i dummyPlayer
            = grantItemComponent (es.players.getD i dummyPlayer) comp) ∧
      (((es.players.getD i dummyPlayer).is_alive = false →
        (runCombatPhase o es).1.players.getD i dummyPlayer
          = es.players.getD i dummyPlayer))) := by
  have hrt : getRoundType es.round.current_round = "carousel" := by
    unfold getRoundType
    rw [if_pos h]
  have hrun : runCombatPhase o es = (runCarouselPhase o es, []) := by
    unfold runCombatPhase
    rw [hrt]
    simp
  have hply : (runCarouselPhase o es).players
      = carouselMap o es.rng es.players := by
    unfold runCarouselPhase
    rw [carousel_foldl_eq o es.players [] es.rng]
    simp
  rw [hrun]
  refine ⟨rfl, ?_, ?_⟩
  · simp only [hply]
    exact carouselMap_length o es.players es.rng
  · intro i hi
    have := carouselMap_getD o es.players es.rng i hi
    simpa only [hply] using this

/-- C3 witness: player 0 (alive) of the demo engine at round 9 gains
one component, player 1 (eliminated) is untouched, and the result map
is empty. -/
theorem carousel_round_spec_witness :
    (runCombatPhase demoOracle demoEngine).2 = [] ∧
    (runCombatPhase demoOracle demoEngine).1.players.length
      = demoEngine.players.length ∧
    ∀ i, i < demoEngine.players.length →
      (((demoEngine.players.getD i dummyPlayer).is_alive = true →
        ∃ comp ∈ ITEM_COMPONENTS,
          (runCombatPhase demoOracle demoEngine).1.players.getD i dummyPlayer
            = grantItemComponent (demoEngine.players.getD i dummyPlayer) comp) ∧
      (((demoEngine.players.getD i dummyPlayer).is_alive = false →
        (runCombatPhase demoOracle demoEngine).1.players.getD i dummyPlayer
          = demoEngine.players.getD i dummyPlayer))) :=
  carousel_round_spec demoOracle demoEngine (by decide)

/-! ### C4: the EndPlanning to StartCombat handler chain -/

theorem playerResetForCombat_fields (st : Store) (p : PlayerSt) (cid : Nat) :
    (((playerResetForCombat st p) cid).fires_missiles
        = (st cid).fires_missiles) ∧
    (((playerResetForCombat st p) cid).attack_range
        = (st cid).attack_range) ∧
    (((playerResetForCombat st p) cid).shield = (st cid).shield) := by
  unfold playerResetForCombat
  rw [foldl_updStore_pointwise resetForCombat (fun ch => rfl)]
  by_cases h : cid ∈ getAllChampionsB p.board
  · simp [h, resetForCombat]
  · simp [h]

theorem endPlanning_foldl_store_fields (tl : TraitLookup) :
    ∀ (ps : List PlayerSt) (acc : List PlayerSt) (st : Store) (cid : Nat),
      ((((ps.foldl
        (fun (acc : List PlayerSt × Store) p =>
          if p.is_alive then
            let p1 := updateActiveTraits tl acc.2 p
            (acc.1 ++ [p1], playerResetForCombat acc.2 p1)
          else (acc.1 ++ [p], acc.2))
        (acc, st)).2) cid).fires_missiles = (st cid).fires_missiles) ∧
      ((((ps.foldl
        (fun (acc : List PlayerSt × Store) p =>
          if p.is_alive then
            let p1 := updateActiveTraits tl acc.2 p
            (acc.1 ++ [p1], playerResetForCombat acc.2 p1)
          else (acc.1 ++ [p], acc.2))
        (acc, st)).2) cid).attack_range = (st cid).attack_range) ∧
      ((((ps.foldl
        (fun (acc : List PlayerSt × Store) p =>
          if p.is_alive then
            let p1 := updateActiveTraits tl acc.2 p
            (acc.1 ++ [p1], playerResetForCombat acc.2 p1)
          else (acc.1 ++ [p], acc.2))
        (acc, st)).2) cid).shield = (st cid).shield) := by
  intro ps
  induction ps with
  | nil => intro acc st cid; exact ⟨rfl, rfl, rfl⟩
  | cons p ps ih =>
    intro acc st cid
    by_cases h : p.is_alive
    · simp only [List.foldl_cons, h, if_true]
      have h1 := playerResetForCombat_fields st (updateActiveTraits tl st p) cid
      have h2 := ih (acc ++ [updateActiveTraits tl st p])
        (playerResetForCombat st (updateActiveTraits tl st p)) cid
      exact ⟨h2.1.trans h1.1, h2.2.1.trans h1.2.1, h2.2.2.trans h1.2.2⟩
    · simp only [List.foldl_cons, h, if_false]
      exact ih (acc ++ [p]) st cid

theorem endPlanningPhase_store_fields (tl : TraitLookup) (es : EngineSt)
    (cid : Nat) :
    (((endPlanningPhase tl es).store cid).fires_missiles
        = (es.store cid).fires_missiles) ∧
    (((endPlanningPhase tl es).store cid).attack_range
        = (es.store cid).attack_range) ∧
    (((endPlanningPhase tl es).store cid).shield = (es.store cid).shield) :=
  endPlanning_foldl_store_fields tl es.players [] es.store cid

theorem runCombatPhase_store (o : Oracle) (es : EngineSt) :
    (runCombatPhase o es).1.store = es.store := by
  unfold runCombatPhase
  by_cases h1 : getRoundType es.round.current_round = "carousel"
  · simp [h1, runCarouselPhase]
  · by_cases h2 : getRoundType es.round.current_round = "minion"
    · simp [h1, h2, runMinionPhase]
    · by_cases h3 : (es.players.filter (fun p => p.is_alive)).length ≤ 1
      · simp [h1, h2, runPvpPhase, h3]
      · simp [h1, h2, runPvpPhase, h3]

/-- C4.  Across the engine's EndPlanning → StartCombat handler chain
(end_planning_phase, then run_combat_phase resolving the round's
matchups), no champion in the shared store ever has an augment passive
applied: the artillery fires-missiles flag, the attack range and the
exiles shield of every stored champion are bit-for-bit unchanged at the
moment combat is resolved, for every trait catalogue, oracle and
engine state.  The handlers never consult the AugmentEffectRegistry
(registry.apply_all_passives has no caller), so the claimed
passives-before-combat ordering does not hold: passives are simply
never applied. -/
theorem passives_not_applied_before_combat (tl : TraitLookup) (o : Oracle)
    (es : EngineSt) (cid : Nat) :
    (((handleStartCombat o (handleEndPlanning tl es)).1.store cid).fires_missiles
        = (es.store cid).fires_missiles) ∧
    (((handleStartCombat o (handleEndPlanning tl es)).1.store cid).attack_range
        = (es.store cid).attack_range) ∧
    (((handleStartCombat o (handleEndPlanning tl es)).1.store cid).shield
        = (es.store cid).shield) := by
  have hsc : (handleStartCombat o (handleEndPlanning tl es)).1.store
      = (handleEndPlanning tl es).store := runCombatPhase_store o _
  rw [hsc]
  exact endPlanningPhase_store_fields tl es cid

/-! ### C5: the event queue ordering -/

theorem evLt_same (t : ℚ) (x y : Nat) :
    evLt { ts := t, tag := x } { ts := t, tag := y } = false := by
  simp [evLt]

/-- C5 counterexample.  Four events scheduled at one equal timestamp in
tag order 1, 2, 3, 4 are not popped in insertion order: the first pop
returns tag 1 but the second pop returns tag 3, because the heap
compares events by timestamp alone and the pop-and-sift algorithm does
not preserve insertion order among ties. -/
theorem event_ties_not_fifo :
    ((processNextEvent demoQueue).map fun r => r.1.tag) = some 1 ∧
    ((processNextEvent demoQueue).bind fun r =>
        (processNextEvent r.2).map fun s => s.1.tag) = some 3 := by
  decide

/-- C5 (amended).  Ties are not FIFO in general; what does hold is
that with at most three equal-timestamp events scheduled on an empty
queue, process_next_event still pops them in insertion order (for any
timestamp and payloads), advancing the clock to the shared timestamp.
From four equal-timestamp events onward insertion order can be lost
(see the four-event counterexample). -/
theorem event_ties_fifo_upto_three (t : ℚ) (a b c : Nat) :
    ((processNextEvent (scheduleEvent (scheduleEvent (scheduleEvent
        { event_queue := [], current_time := 0 } t a) t b) t c)).map
      fun r => (r.1.tag, r.2.current_time)) = some (a, t) ∧
    ((processNextEvent (scheduleEvent (scheduleEvent (scheduleEvent
        { event_queue := [], current_time := 0 } t a) t b) t c)).bind fun r =>
      (processNextEvent r.2).map fun s => s.1.tag) = some b ∧
    ((processNextEvent (scheduleEvent (scheduleEvent (scheduleEvent
        { event_queue := [], current_time := 0 } t a) t b) t c)).bind fun r =>
      (processNextEvent r.2).bind fun s =>
        (processNextEvent s.2).map fun u => u.1.tag) = some c := by
  have h1 : scheduleEvent (scheduleEvent (scheduleEvent
      { event_queue := [], current_time := 0 } t a) t b) t c
      = { event_queue :=
            [ { ts := t, tag := a }, { ts := t, tag := b }
            , { ts := t, tag := c } ],
          current_time := 0 } := by
    simp [scheduleEvent, heappush, siftdown, siftdownAux, evLt_same]
  rw [h1]
  simp [processNextEvent, heappop, siftup, siftupAux, siftdown,
    siftdownAux, evLt_same, dummyEv, List.getLastD, List.dropLast]

end TFT
